import Mathlib

/-!
# URL shortener backend: mapping store and click recorder

A shallow embedding of `Backend Test Submission/index.js`.

* The two module-level `Map`s (`urlDatabase`, `clickDatabase`) become an explicit `Store`
  that every handler receives and returns.  A JS `Map` iterates in insertion order and
  `set` on an existing key keeps its position, so a map is an association list.
* The wall clock (`moment()`), the random pool read by `nanoid` and `Math.random()` are
  inputs of the handlers.  Instants are epoch milliseconds; an ISO string written by
  `toISOString()` and read back by `moment(...)` denotes the same instant, so both are the
  millisecond count, and `null` (what `toISOString()` gives for an invalid date) is `none`.
* `Log(...)` only talks to the external sink, swallows its own failures and touches neither
  map: it is dropped.
* `generateShortCode` is a `do ... while` loop with no bound.  The random source is the
  list of draws the loop would read; running out of draws (`none`) stands for a loop that
  has not returned.
* The handlers come in two layers.  `createShortUrl`, `resolve`, `getStats` and `listAll`
  take the body fields `url` and `shortcode` as strings and handle one request at a time.
  `createCheck`, `createWrite`, `resolveOnWire` and `getStatsOnWire` take any JSON value in
  a body field, key the maps by JS values, and split the create handler at the `await`
  that separates its key test from its writes, so that requests can overlap.  The first
  layer is the second one restricted to string fields and to requests that do not
  overlap (`createOnWire_onWire`, `resolveOnWire_onWire`, `getStatsOnWire_onWire`).
-/

namespace UrlShortener

/-! ## JSON values of the request body -/

/-- A number produced by `JSON.parse`: a finite value or an infinity (`1e999`). -/
inductive JNum where
  | fin (q : ℚ)
  | inf (neg : Bool)
  deriving DecidableEq

/-- A JSON value.  Of an array or an object the handler observes its truthiness, that it
is not a number, and its string coercion `String(v)` (in the pattern test of line 73 and
in the link template), so both are the one constructor `compound`, carrying that string
(`["abc"]` gives `abc`, an object gives `[object Object]`). -/
inductive JVal where
  | null
  | bool (b : Bool)
  | num (n : JNum)
  | str (s : String)
  | compound (text : String)
  deriving DecidableEq

/-- JS truthiness (`ToBoolean`). -/
def JVal.truthy : JVal → Bool
  | .null => false
  | .bool b => b
  | .num (.fin q) => decide (q ≠ 0)
  | .num (.inf _) => true
  | .str s => decide (s ≠ "")
  | .compound _ => true

/-- The test `Number.isInteger(n)` on a number. -/
def JNum.isInteger : JNum → Bool
  | .fin q => decide (q.den = 1)
  | .inf _ => false

/-- The test `n <= 0` on a number. -/
def JNum.leZero : JNum → Bool
  | .fin q => decide (q ≤ 0)
  | .inf neg => neg

/-- The condition of line 56:
`validity && (!Number.isInteger(validity) || validity <= 0)`.
`Number.isInteger` is false on every non-number, where `||` short-circuits. -/
def validityRejected (validity : JVal) : Bool :=
  validity.truthy &&
    (match validity with
     | .num n => !n.isInteger || n.leZero
     | _ => true)

/-- Milliseconds that `moment().add(validity, 'minutes')` adds: `+validity * 6e4`, cut to
whole milliseconds by `Date.prototype.setTime`.  Only a value that passed line 56 gets
here: a positive integer, or one of the falsy values `0`, `null`, `false`, `""`, all of
which coerce to `0`. -/
def durationMs : JVal → Nat
  | .num (.fin q) => (q.num.toNat * 60000) / q.den
  | _ => 0

/-- Largest epoch millisecond of a valid `Date` (ECMAScript time range). -/
def maxTime : Nat := 8640000000000000

/-- The instant of `toISOString()`: `null` once the date left the valid range. -/
def toISOString (t : Nat) : Option Nat :=
  if t ≤ maxTime then some t else none

/-! ## The two maps -/

/-- `Map.prototype.has`. -/
def mapHas {α : Type} : List (String × α) → String → Bool
  | [], _ => false
  | (k', _) :: m, k => k' == k || mapHas m k

/-- `Map.prototype.get` (`none` is `undefined`). -/
def mapGet {α : Type} : List (String × α) → String → Option α
  | [], _ => none
  | (k', v) :: m, k => if k' == k then some v else mapGet m k

/-- `Map.prototype.set`: overwrite in place, or append at the end. -/
def mapSet {α : Type} : List (String × α) → String → α → List (String × α)
  | [], k, v => [(k, v)]
  | (k', v') :: m, k, v => if k' == k then (k', v) :: m else (k', v') :: mapSet m k v

/-- One click event (`clickData`, lines 181-187); `none` is `undefined`. -/
structure ClickData where
  timestamp : Nat
  referrer : Option String
  userAgent : Option String
  ip : Option String
  location : String
  deriving DecidableEq

/-- One stored record (`urlData`, lines 86-93). -/
structure UrlData where
  originalUrl : String
  shortCode : String
  createdAt : Nat
  expiryTime : Option Nat
  validity : JVal
  clickCount : Nat
  deriving DecidableEq

/-- The session memory of lines 18-19. -/
structure Store where
  urlDatabase : List (String × UrlData)
  clickDatabase : List (String × List ClickData)
  deriving DecidableEq

/-- Both maps right after `new Map()`. -/
def Store.empty : Store := ⟨[], []⟩

/-! ## Code generator -/

/-- The alphabet of `nanoid` (its `urlAlphabet`): 64 symbols, `A-Za-z0-9_-`. -/
def urlAlphabet : List Char :=
  "useandom-26T198340PX75pxJACKVERYMINDBUSHWOLF_GQZbfghjklqvwyzrict".data

/-- The call `nanoid(size)` on the random pool bytes it reads:
`id += urlAlphabet[pool[i] & 63]` for each of the `size` positions. -/
def nanoid (size : Nat) (pool : List Nat) : String :=
  String.mk ((List.range size).map fun i => urlAlphabet.getD ((pool.getD i 0) &&& 63) 'u')

/-- The loop of lines 22-29: draw `nanoid(6)` until the result is not a key.
`draws` holds the pool bytes of the successive draws. -/
def generateShortCode (urlDatabase : List (String × UrlData)) :
    List (List Nat) → Option String
  | [] => none
  | pool :: rest =>
    if mapHas urlDatabase (nanoid 6 pool) then generateShortCode urlDatabase rest
    else some (nanoid 6 pool)

/-- The test `/^[a-zA-Z0-9]{3,10}$/.test(shortcode)` of line 73. -/
def matchesCodePattern (shortcode : String) : Bool :=
  decide (3 ≤ shortcode.length) && decide (shortcode.length ≤ 10) &&
    shortcode.data.all Char.isAlphanum

/-! ## Requests and responses -/

/-- The body of `POST /shorturls`, with the fields `url`, `validity?`, `shortcode?`;
`none` is an absent field (`undefined`).  `url` and `shortcode` are JSON strings when
present; `validity` is any JSON value, since the handler tests its type itself. -/
structure CreateBody where
  url : Option String
  validity : Option JVal
  shortcode : Option String
  deriving DecidableEq

/-- What the redirect handler reads from the request: the two spellings of the referrer
header, `User-Agent`, `req.ip`, `req.connection.remoteAddress`, and the index
`Math.floor(Math.random() * locations.length)` drawn by `getGeographicalLocation`. -/
structure RequestContext where
  referrer : Option String
  referer : Option String
  userAgent : Option String
  ip : Option String
  remoteAddress : Option String
  locationDraw : Fin 5
  deriving DecidableEq

/-- One element of `clicks` in the statistics report (lines 140-145). -/
structure ClickReport where
  timestamp : Nat
  referrer : String
  location : String
  userAgent : Option String
  deriving DecidableEq

/-- The statistics report (lines 134-146). -/
structure StatsReport where
  shortCode : String
  originalUrl : String
  createdAt : Nat
  expiryTime : Option Nat
  totalClicks : Nat
  clicks : List ClickReport
  deriving DecidableEq

/-- One element of the `GET /api/urls` answer (lines 213-218). -/
structure UrlEntry where
  shortCode : String
  originalUrl : String
  createdAt : Nat
  expiryTime : Option Nat
  validity : JVal
  shortLink : String
  clickCount : Nat
  deriving DecidableEq

/-- The HTTP answers of the four handlers. -/
inductive Response where
  | created (shortLink : String) (expiry : Option Nat)
  | badRequest (error : String)
  | notFound (error : String)
  | gone (error : String)
  | redirect (location : String)
  | stats (report : StatsReport)
  | urls (all : List UrlEntry)
  | internalError (error : String)
  deriving DecidableEq

/-- The HTTP status of an answer. -/
def Response.status : Response → Nat
  | .created _ _ => 201
  | .badRequest _ => 400
  | .notFound _ => 404
  | .gone _ => 410
  | .redirect _ => 302
  | .stats _ => 200
  | .urls _ => 200
  | .internalError _ => 500

/-- JS `a || b` on two possibly absent strings. -/
def jsOr (a b : Option String) : Option String :=
  match a with
  | some x => if x ≠ "" then some x else b
  | none => b

/-- Express `req.get('Referrer')` and `req.get('Referer')`: both read
`headers.referrer || headers.referer`. -/
def RequestContext.getReferrer (req : RequestContext) : Option String :=
  jsOr req.referrer req.referer

/-- The table of `getGeographicalLocation` (line 34). -/
def locations : List String :=
  ["New York, US", "London, UK", "Tokyo, JP", "Mumbai, IN", "Sydney, AU"]

/-- The function `getGeographicalLocation`: `locations[draw]`. -/
def getGeographicalLocation (draw : Fin 5) : String :=
  locations.getD draw.val ""

/-- The template `http://localhost:$PORT/$code` of lines 98 and 216. -/
def shortLinkOf (PORT code : String) : String :=
  "http://localhost:" ++ PORT ++ "/" ++ code

/-- The test `now.isAfter(expiry)` of line 174 (strictly later); false when `expiry` is an
invalid moment (`moment(null)`). -/
def isAfter (now : Nat) (expiry : Option Nat) : Bool :=
  match expiry with
  | some e => decide (e < now)
  | none => false

/-! ## The handlers -/

/-- The handler of `POST /shorturls` (lines 43-113) on a body whose `url` and `shortcode`
are strings, with no other request handled while it waits in `await Log(...)`; see
`createCheck` and `createWrite` for any JSON body and overlapping requests.  `isURL` is
`validator.isURL`, `PORT` the listening port, `t1` and `t2` the clock readings of the two
`moment()` calls of lines 83 and 84, `draws` the random pool of the generator.  `none`:
the generator loop has not returned. -/
def createShortUrl (isURL : String → Bool) (PORT : String) (body : CreateBody)
    (t1 t2 : Nat) (draws : List (List Nat)) (s : Store) : Option (Response × Store) :=
  let validity := body.validity.getD (.num (.fin 30))
  if (match body.url with
      | none => true
      | some url => url = "" || !isURL url) then
    some (.badRequest "Invalid URL format", s)
  else if validityRejected validity then
    some (.badRequest "Validity must be a positive integer (minutes)", s)
  else
    let custom : Option String :=
      match body.shortcode with
      | some shortcode => if shortcode ≠ "" then some shortcode else none
      | none => none
    if (match custom with
        | some shortcode => mapHas s.urlDatabase shortcode
        | none => false) then
      some (.badRequest "Shortcode already exists. Please choose a different one.", s)
    else
      let finalShortCode : Option String :=
        match custom with
        | some shortcode =>
          if !matchesCodePattern shortcode then generateShortCode s.urlDatabase draws
          else some shortcode
        | none => generateShortCode s.urlDatabase draws
      match finalShortCode with
      | none => none
      | some code =>
        let createdAt := t1
        let expiryTime := toISOString (t2 + durationMs validity)
        let urlData : UrlData :=
          ⟨body.url.getD "", code, createdAt, expiryTime, validity, 0⟩
        some (.created (shortLinkOf PORT code) expiryTime,
              ⟨mapSet s.urlDatabase code urlData, mapSet s.clickDatabase code []⟩)

/-- The handler of `GET /shorturls/:shortcode` (lines 116-154).  An `undefined` record
would throw at `urlData.originalUrl` and end in the `catch` branch. -/
def getStats (shortcode : String) (s : Store) : Response × Store :=
  if !mapHas s.urlDatabase shortcode then
    (.notFound "Short URL not found", s)
  else
    match mapGet s.urlDatabase shortcode with
    | none => (.internalError "Internal server error", s)
    | some urlData =>
      let clicks := (mapGet s.clickDatabase shortcode).getD []
      (.stats
        ⟨shortcode, urlData.originalUrl, urlData.createdAt, urlData.expiryTime, clicks.length,
         clicks.map fun click =>
           ⟨click.timestamp, (jsOr click.referrer (some "Direct")).getD "Direct",
            click.location, click.userAgent⟩⟩,
       s)

/-- The handler of `GET /:shortcode` (lines 157-206), at clock reading `now`.  An
`undefined` click sequence throws at `clicks.push` and ends in the `catch` branch, before
either map is written. -/
def resolve (shortcode : String) (now : Nat) (req : RequestContext) (s : Store) :
    Response × Store :=
  if !mapHas s.urlDatabase shortcode then
    (.notFound "Short URL not found", s)
  else
    match mapGet s.urlDatabase shortcode with
    | none => (.internalError "Internal server error", s)
    | some urlData =>
      if isAfter now urlData.expiryTime then
        (.gone "Short URL has expired", s)
      else
        let clickData : ClickData :=
          ⟨now, jsOr req.getReferrer req.getReferrer, req.userAgent,
           jsOr req.ip req.remoteAddress, getGeographicalLocation req.locationDraw⟩
        match mapGet s.clickDatabase shortcode with
        | none => (.internalError "Internal server error", s)
        | some clicks =>
          let clicks := clicks ++ [clickData]
          let urlData := { urlData with clickCount := clicks.length }
          (.redirect urlData.originalUrl,
           ⟨mapSet s.urlDatabase shortcode urlData, mapSet s.clickDatabase shortcode clicks⟩)

/-- The handler of `GET /api/urls` (lines 209-228).  In the object literal the spread
`...data` follows `shortCode` and precedes `shortLink` and `clickCount`. -/
def listAll (PORT : String) (s : Store) : Response × Store :=
  (.urls (s.urlDatabase.map fun entry =>
      ⟨entry.2.shortCode, entry.2.originalUrl, entry.2.createdAt, entry.2.expiryTime,
       entry.2.validity, shortLinkOf PORT entry.1,
       ((mapGet s.clickDatabase entry.1).getD []).length⟩),
   s)

/-- The record that a successful create writes under `code`: the `urlData` literal of
lines 86-93, with `validity` defaulted as on line 45. -/
def newRecord (body : CreateBody) (code : String) (t1 t2 : Nat) : UrlData :=
  ⟨body.url.getD "", code, t1,
   toISOString (t2 + durationMs (body.validity.getD (.num (.fin 30)))),
   body.validity.getD (.num (.fin 30)), 0⟩

/-- The click event that a redirect at `now` records: the `clickData` literal of
lines 181-187. -/
def clickOf (now : Nat) (req : RequestContext) : ClickData :=
  ⟨now, jsOr req.getReferrer req.getReferrer, req.userAgent,
   jsOr req.ip req.remoteAddress, getGeographicalLocation req.locationDraw⟩

/-- The stores the running service can be in: the empty store, closed under every
request to the four handlers. -/
inductive Reachable (isURL : String → Bool) (PORT : String) : Store → Prop where
  | init : Reachable isURL PORT Store.empty
  | create {s s' : Store} {r : Response} (body : CreateBody) (t1 t2 : Nat)
      (draws : List (List Nat)) :
      Reachable isURL PORT s →
      createShortUrl isURL PORT body t1 t2 draws s = some (r, s') →
      Reachable isURL PORT s'
  | resolve {s : Store} (shortcode : String) (now : Nat) (req : RequestContext) :
      Reachable isURL PORT s → Reachable isURL PORT (resolve shortcode now req s).2
  | getStats {s : Store} (shortcode : String) :
      Reachable isURL PORT s → Reachable isURL PORT (getStats shortcode s).2
  | listAll {s : Store} :
      Reachable isURL PORT s → Reachable isURL PORT (listAll PORT s).2

/-- One request to the service, with the inputs its handler reads. -/
inductive Request where
  | create (body : CreateBody) (t1 t2 : Nat) (draws : List (List Nat))
  | resolve (shortcode : String) (now : Nat) (req : RequestContext)
  | getStats (shortcode : String)
  | listAll
  deriving DecidableEq

/-- The routing of lines 43, 116, 157 and 209: each request runs its handler on the
store.  `none`: the handler has not answered (generator loop). -/
def handle (isURL : String → Bool) (PORT : String) :
    Request → Store → Option (Response × Store)
  | .create body t1 t2 draws, s => createShortUrl isURL PORT body t1 t2 draws s
  | .resolve shortcode now req, s => some (resolve shortcode now req s)
  | .getStats shortcode, s => some (getStats shortcode s)
  | .listAll, s => some (listAll PORT s)

/-- A character of the class `[A-Za-z0-9_-]`. -/
def isUrlSafeChar (c : Char) : Bool :=
  c.isAlphanum || c == '_' || c == '-'

/-- The pattern `[A-Za-z0-9_-]` repeated 3 to 10 times, anchored at both ends. -/
def matchesUrlSafePattern (code : String) : Bool :=
  decide (3 ≤ code.length) && decide (code.length ≤ 10) && code.data.all isUrlSafeChar

/-- Shape of a generated code: exactly six symbols of the `nanoid` alphabet. -/
def isNanoid6 (code : String) : Bool :=
  decide (code.length = 6) && code.data.all fun c => urlAlphabet.contains c

/-! ## Sample inputs -/

/-- A stand-in for `validator.isURL` on the sample requests: it accepts the URL
`https://example.com`, which `validator.isURL` accepts, and nothing else. -/
def sampleIsURL (url : String) : Bool :=
  url == "https://example.com"

/-- A request without referrer, user agent or address, drawing the first location. -/
def sampleRequest : RequestContext :=
  ⟨none, none, none, none, none, 0⟩

/-- The store after one create of `https://example.com` under the custom code `abc`
with `validity = 1`, both clock readings at instant `0`. -/
def storeAbc : Store :=
  ⟨[("abc", ⟨"https://example.com", "abc", 0, some 60000, .num (.fin 1), 0⟩)],
   [("abc", [])]⟩

/-- The store after one create of `https://example.com` without a custom code, at
instant `0`, when every byte read by `nanoid` is `8`: the generated code is `------`. -/
def storeDashes : Store :=
  ⟨[("------", ⟨"https://example.com", "------", 0, some 1800000, .num (.fin 30), 0⟩)],
   [("------", [])]⟩

/-- The store `storeAbc` after a second create, without a custom code, at instant `5`,
when `nanoid` reads the bytes `0, 1, 2, 3, 4, 5`: the generated code is `useand`. -/
def storeAbcUseand : Store :=
  ⟨[("abc", ⟨"https://example.com", "abc", 0, some 60000, .num (.fin 1), 0⟩),
    ("useand", ⟨"https://example.com", "useand", 5, some 1800005, .num (.fin 30), 0⟩)],
   [("abc", []), ("useand", [])]⟩

/-- A request whose `Referer` header is present with an empty value. -/
def requestEmptyReferer : RequestContext :=
  ⟨none, some "", none, none, none, 0⟩

/-- The store `storeAbc` after one redirect of `abc` at instant `10` for the request
`requestEmptyReferer`: the recorded referrer is the empty string. -/
def storeAbcClicked : Store :=
  ⟨[("abc", ⟨"https://example.com", "abc", 0, some 60000, .num (.fin 1), 1⟩)],
   [("abc", [⟨10, some "", none, none, "New York, US"⟩])]⟩

/-! ## The handlers on the wire

The definitions above take the body fields `url` and `shortcode` as strings and run the
create handler in one step.  `express.json()` delivers any JSON value in a field, and the
create handler suspends in `await Log(...)` (line 74 or 77) between its key test of
line 66 and its writes of lines 95-96, so other requests can be handled in between.  The
definitions below keep both: the maps are keyed by JS values, the body fields are JSON
values, and the create handler is the two steps before and after that `await`.  The other
handlers read and write without an `await` in between. -/

/-- The string coercion `String(v)` used by the pattern test of line 73 and by the link
template of line 98.  A non-negative safe integer is written as its decimal digits.
`none` stands for the form of any other finite number: it contains `-`, `.` or `+`, or
has 16 or more characters, so it never matches the pattern and is never the text of a
stored code. -/
def jsText : JVal → Option String
  | .null => some "null"
  | .bool b => some (if b then "true" else "false")
  | .num (.inf neg) => some (if neg then "-Infinity" else "Infinity")
  | .num (.fin q) =>
    if q.den = 1 ∧ 0 ≤ q.num ∧ q.num ≤ 9007199254740991 then some (Nat.repr q.num.toNat)
    else none
  | .str s => some s
  | .compound text => some text

/-- The key comparison of a JS `Map` (SameValueZero).  An array or object is compared by
identity, and the one parsed from a request body is a fresh object: never an earlier
key. -/
def sameValueZero : JVal → JVal → Bool
  | .compound _, _ => false
  | _, .compound _ => false
  | a, b => decide (a = b)

/-- `Map.prototype.has` on a map keyed by JS values. -/
def wireHas {α : Type} : List (JVal × α) → JVal → Bool
  | [], _ => false
  | (k', _) :: m, k => sameValueZero k' k || wireHas m k

/-- `Map.prototype.get` on a map keyed by JS values (`none` is `undefined`). -/
def wireGet {α : Type} : List (JVal × α) → JVal → Option α
  | [], _ => none
  | (k', v) :: m, k => if sameValueZero k' k then some v else wireGet m k

/-- `Map.prototype.set` on a map keyed by JS values: overwrite in place, or append. -/
def wireSet {α : Type} : List (JVal × α) → JVal → α → List (JVal × α)
  | [], k, v => [(k, v)]
  | (k', v') :: m, k, v =>
    if sameValueZero k' k then (k', v) :: m else (k', v') :: wireSet m k v

/-- One stored record (`urlData`, lines 86-93), `shortCode` being the value of
`finalShortCode`. -/
structure WireData where
  originalUrl : String
  shortCode : JVal
  createdAt : Nat
  expiryTime : Option Nat
  validity : JVal
  clickCount : Nat
  deriving DecidableEq

/-- The session memory of lines 18-19, keyed by JS values. -/
structure WireStore where
  urlDatabase : List (JVal × WireData)
  clickDatabase : List (JVal × List ClickData)
  deriving DecidableEq

/-- The parsed body of `POST /shorturls`: each field absent (`none`) or a JSON value. -/
structure WireBody where
  url : Option JVal
  validity : Option JVal
  shortcode : Option JVal
  deriving DecidableEq

/-- The pattern test of line 73 on any JS value: `RegExp.prototype.test` coerces its
argument to a string first. -/
def testCodePattern (shortcode : JVal) : Bool :=
  match jsText shortcode with
  | some text => matchesCodePattern text
  | none => false

/-- A create request waiting in `await Log(...)` after its key test: at line 77 with
the supplied code kept, or at line 74 with the generator still to run.  A request without
a custom code reaches the generator of line 80 having read neither map, which is the
second case. -/
inductive Suspended where
  | keep (url : String) (validity : JVal) (shortcode : JVal)
  | regenerate (url : String) (validity : JVal)
  deriving DecidableEq

/-- The outcome of lines 44-81 of the create handler: an answer that ends the request
with nothing written, or the suspended request. -/
inductive Checked where
  | answered (r : Response)
  | suspended (p : Suspended)
  deriving DecidableEq

/-- Lines 44-81 of the create handler up to the `await` that follows the key test.
`none` as body is `req.body === undefined` (Express 5 without a JSON body), on which the
destructuring of line 45 throws; `validator.isURL` throws on a value that is not a
string; both end in the `catch` branch of lines 107-111. -/
def createCheck (isURL : String → Bool) (body : Option WireBody) (s : WireStore) : Checked :=
  match body with
  | none => .answered (.internalError "Internal server error")
  | some body =>
    let validity := body.validity.getD (.num (.fin 30))
    match body.url with
    | none => .answered (.badRequest "Invalid URL format")
    | some url =>
      if !url.truthy then .answered (.badRequest "Invalid URL format")
      else
        match url with
        | .str u =>
          if !isURL u then .answered (.badRequest "Invalid URL format")
          else if validityRejected validity then
            .answered (.badRequest "Validity must be a positive integer (minutes)")
          else
            match body.shortcode with
            | none => .suspended (.regenerate u validity)
            | some shortcode =>
              if !shortcode.truthy then .suspended (.regenerate u validity)
              else if wireHas s.urlDatabase shortcode then
                .answered (.badRequest "Shortcode already exists. Please choose a different one.")
              else if !testCodePattern shortcode then .suspended (.regenerate u validity)
              else .suspended (.keep u validity shortcode)
        | _ => .answered (.internalError "Internal server error")

/-- The loop of lines 22-29 on the map keyed by JS values. -/
def generateCodeOnWire (urlDatabase : List (JVal × WireData)) :
    List (List Nat) → Option String
  | [] => none
  | pool :: rest =>
    if wireHas urlDatabase (.str (nanoid 6 pool)) then generateCodeOnWire urlDatabase rest
    else some (nanoid 6 pool)

/-- Lines 75-105 of the create handler after the `await`, on the store as it is then:
the generator if it is still to run, the two clock readings, the two `set` calls with no
further key test, and the answer.  `none`: the generator loop has not returned. -/
def createWrite (PORT : String) (p : Suspended) (t1 t2 : Nat) (draws : List (List Nat))
    (s : WireStore) : Option (Response × WireStore) :=
  let finalShortCode : Option JVal :=
    match p with
    | .keep _ _ shortcode => some shortcode
    | .regenerate _ _ => (generateCodeOnWire s.urlDatabase draws).map JVal.str
  let url : String :=
    match p with
    | .keep url _ _ => url
    | .regenerate url _ => url
  let validity : JVal :=
    match p with
    | .keep _ validity _ => validity
    | .regenerate _ validity => validity
  match finalShortCode with
  | none => none
  | some code =>
    let expiryTime := toISOString (t2 + durationMs validity)
    let urlData : WireData := ⟨url, code, t1, expiryTime, validity, 0⟩
    some (.created (shortLinkOf PORT ((jsText code).getD "")) expiryTime,
          ⟨wireSet s.urlDatabase code urlData, wireSet s.clickDatabase code []⟩)

/-- The create handler when no other request is handled during its `await`. -/
def createOnWire (isURL : String → Bool) (PORT : String) (body : Option WireBody)
    (t1 t2 : Nat) (draws : List (List Nat)) (s : WireStore) : Option (Response × WireStore) :=
  match createCheck isURL body s with
  | .answered r => some (r, s)
  | .suspended p => createWrite PORT p t1 t2 draws s

/-- The handler of `GET /shorturls/:shortcode` (lines 116-154) on the store keyed by JS
values: the route parameter is a string. -/
def getStatsOnWire (shortcode : String) (s : WireStore) : Response × WireStore :=
  if !wireHas s.urlDatabase (.str shortcode) then
    (.notFound "Short URL not found", s)
  else
    match wireGet s.urlDatabase (.str shortcode) with
    | none => (.internalError "Internal server error", s)
    | some urlData =>
      let clicks := (wireGet s.clickDatabase (.str shortcode)).getD []
      (.stats
        ⟨shortcode, urlData.originalUrl, urlData.createdAt, urlData.expiryTime, clicks.length,
         clicks.map fun click =>
           ⟨click.timestamp, (jsOr click.referrer (some "Direct")).getD "Direct",
            click.location, click.userAgent⟩⟩,
       s)

/-- The handler of `GET /:shortcode` (lines 157-206) on the store keyed by JS values. -/
def resolveOnWire (shortcode : String) (now : Nat) (req : RequestContext) (s : WireStore) :
    Response × WireStore :=
  if !wireHas s.urlDatabase (.str shortcode) then
    (.notFound "Short URL not found", s)
  else
    match wireGet s.urlDatabase (.str shortcode) with
    | none => (.internalError "Internal server error", s)
    | some urlData =>
      if isAfter now urlData.expiryTime then
        (.gone "Short URL has expired", s)
      else
        match wireGet s.clickDatabase (.str shortcode) with
        | none => (.internalError "Internal server error", s)
        | some clicks =>
          let clicks := clicks ++ [clickOf now req]
          let urlData := { urlData with clickCount := clicks.length }
          (.redirect urlData.originalUrl,
           ⟨wireSet s.urlDatabase (.str shortcode) urlData,
            wireSet s.clickDatabase (.str shortcode) clicks⟩)

/-- A stand-in for `validator.isURL` on the sample requests: it accepts the strings that
start with `https://example.` (`https://example.com`, `https://example.org`), which
`validator.isURL` accepts. -/
def sampleIsURLWire (url : String) : Bool :=
  url.data.take 16 == "https://example.".data

/-- The store keyed by JS values right after `new Map()`. -/
def WireStore.empty : WireStore := ⟨[], []⟩

/-- The body with `url = "https://example.com"`, `validity = 1`, `shortcode = "abc"`. -/
def bodyAbcFirst : WireBody :=
  ⟨some (.str "https://example.com"), some (.num (.fin 1)), some (.str "abc")⟩

/-- The body with `url = "https://example.org"`, `validity = 5`, `shortcode = "abc"`. -/
def bodyAbcSecond : WireBody :=
  ⟨some (.str "https://example.org"), some (.num (.fin 5)), some (.str "abc")⟩

/-- The store after the first `abc` request alone has written, at instant `0`. -/
def wireStoreFirst : WireStore :=
  ⟨[(.str "abc", ⟨"https://example.com", .str "abc", 0, some 60000, .num (.fin 1), 0⟩)],
   [(.str "abc", [])]⟩

/-- The store `wireStoreFirst` after one redirect of `abc` at instant `10`. -/
def wireStoreFirstClicked : WireStore :=
  ⟨[(.str "abc", ⟨"https://example.com", .str "abc", 0, some 60000, .num (.fin 1), 1⟩)],
   [(.str "abc", [⟨10, none, none, none, "New York, US"⟩])]⟩

/-- The store after the second `abc` request has written too, at instant `20`: one
record, the second request's, with no clicks. -/
def wireStoreSecond : WireStore :=
  ⟨[(.str "abc", ⟨"https://example.org", .str "abc", 20, some 300020, .num (.fin 5), 0⟩)],
   [(.str "abc", [])]⟩

/-- The store after a create of `https://example.com` with the number `123` as
`shortcode`, at instant `0`: the key is the number. -/
def wireStoreNumber : WireStore :=
  ⟨[(.num (.fin 123),
     ⟨"https://example.com", .num (.fin 123), 0, some 1800000, .num (.fin 30), 0⟩)],
   [(.num (.fin 123), [])]⟩

/-- The store after a create of `https://example.com` with the string `"123"` as
`shortcode`, at instant `0`. -/
def wireStoreText123 : WireStore :=
  ⟨[(.str "123", ⟨"https://example.com", .str "123", 0, some 1800000, .num (.fin 30), 0⟩)],
   [(.str "123", [])]⟩

/-- The store `wireStoreText123` after a later create of `https://example.org` with the
number `123` as `shortcode`, at instant `1`. -/
def wireStoreBoth123 : WireStore :=
  ⟨[(.str "123", ⟨"https://example.com", .str "123", 0, some 1800000, .num (.fin 30), 0⟩),
    (.num (.fin 123),
     ⟨"https://example.org", .num (.fin 123), 1, some 1800001, .num (.fin 30), 0⟩)],
   [(.str "123", []), (.num (.fin 123), [])]⟩

/-- A record with a string code as a record of the store keyed by JS values. -/
def UrlData.onWire (d : UrlData) : WireData :=
  ⟨d.originalUrl, .str d.shortCode, d.createdAt, d.expiryTime, d.validity, d.clickCount⟩

/-- A store with string keys as a store keyed by JS values. -/
def Store.onWire (s : Store) : WireStore :=
  ⟨s.urlDatabase.map fun e => (.str e.1, e.2.onWire),
   s.clickDatabase.map fun e => (.str e.1, e.2)⟩

/-- A body with string fields as a parsed body. -/
def CreateBody.onWire (body : CreateBody) : WireBody :=
  ⟨body.url.map JVal.str, body.validity, body.shortcode.map JVal.str⟩

/-! ## Lemmas on the maps and on the create handler -/

theorem mapGet_eq_none_iff {α : Type} (m : List (String × α)) (k : String) :
    mapGet m k = none ↔ mapHas m k = false := by
  induction m with
  | nil => simp [mapGet, mapHas]
  | cons e m ih =>
    obtain ⟨k', v⟩ := e
    by_cases h : k' = k <;> simp [mapGet, mapHas, h, ih]

theorem mapHas_iff_get {α : Type} (m : List (String × α)) (k : String) :
    mapHas m k = true ↔ ∃ v, mapGet m k = some v := by
  induction m with
  | nil => simp [mapGet, mapHas]
  | cons e m ih =>
    obtain ⟨k', v⟩ := e
    by_cases h : k' = k <;> simp [mapGet, mapHas, h, ih]

theorem mapSet_of_not_has {α : Type} (m : List (String × α)) (k : String) (v : α)
    (h : mapHas m k = false) : mapSet m k v = m ++ [(k, v)] := by
  induction m with
  | nil => rfl
  | cons e m ih =>
    obtain ⟨k', v'⟩ := e
    by_cases hk : k' = k
    · simp [mapHas, hk] at h
    · simp [mapHas, hk] at h
      simp [mapSet, hk, ih h]

theorem mapHas_mapSet {α : Type} (m : List (String × α)) (k k' : String) (v : α) :
    mapHas (mapSet m k v) k' = (mapHas m k' || k == k') := by
  induction m with
  | nil => simp [mapSet, mapHas]
  | cons e m ih =>
    obtain ⟨k₀, v₀⟩ := e
    by_cases hk : k₀ = k
    · subst hk
      by_cases hk' : k₀ = k' <;> simp [mapSet, mapHas, hk']
    · simp [mapSet, mapHas, hk, ih, Bool.or_assoc]

theorem mapGet_mapSet {α : Type} (m : List (String × α)) (k k' : String) (v : α) :
    mapGet (mapSet m k v) k' = if k = k' then some v else mapGet m k' := by
  induction m with
  | nil => simp [mapSet, mapGet]
  | cons e m ih =>
    obtain ⟨k₀, v₀⟩ := e
    by_cases hk : k₀ = k
    · subst hk
      by_cases hk' : k₀ = k' <;> simp [mapSet, mapGet, hk']
    · by_cases hk' : k = k'
      · subst hk'
        simp [mapSet, mapGet, hk, ih]
      · simp [mapSet, mapGet, hk, ih, hk']

theorem generateShortCode_some {db : List (String × UrlData)} {draws : List (List Nat)}
    {c : String} (h : generateShortCode db draws = some c) :
    mapHas db c = false ∧ ∃ pool ∈ draws, c = nanoid 6 pool := by
  induction draws with
  | nil => simp [generateShortCode] at h
  | cons pool rest ih =>
    unfold generateShortCode at h
    split at h
    · obtain ⟨h1, p, hp, hc⟩ := ih h
      exact ⟨h1, p, List.mem_cons_of_mem _ hp, hc⟩
    · rename_i hfree
      cases h
      exact ⟨Bool.eq_false_iff.mpr hfree, pool, List.mem_cons_self _ _, rfl⟩
theorem createShortUrl_cases {isURL : String → Bool} {PORT : String} {body : CreateBody}
    {t1 t2 : Nat} {draws : List (List Nat)} {s s' : Store} {r : Response}
    (h : createShortUrl isURL PORT body t1 t2 draws s = some (r, s')) :
    (s' = s ∧ ∃ msg, r = .badRequest msg) ∨
    (∃ url code,
      body.url = some url ∧ url ≠ "" ∧ isURL url = true ∧
      validityRejected (body.validity.getD (.num (.fin 30))) = false ∧
      mapHas s.urlDatabase code = false ∧
      ((body.shortcode = some code ∧ code ≠ "" ∧ matchesCodePattern code = true) ∨
        generateShortCode s.urlDatabase draws = some code) ∧
      r = .created (shortLinkOf PORT code) (newRecord body code t1 t2).expiryTime ∧
      s' = ⟨mapSet s.urlDatabase code (newRecord body code t1 t2),
            mapSet s.clickDatabase code []⟩) := by
  have gen : ∀ code, generateShortCode s.urlDatabase draws = some code →
      mapHas s.urlDatabase code = false := fun code hg => (generateShortCode_some hg).1
  obtain ⟨u, v, sc⟩ := body
  unfold createShortUrl at h
  simp only at h
  split at h
  · cases h; exact Or.inl ⟨rfl, _, rfl⟩
  · rename_i hurl
    split at h
    · cases h; exact Or.inl ⟨rfl, _, rfl⟩
    · rename_i hval
      split at h
      · cases h; exact Or.inl ⟨rfl, _, rfl⟩
      · rename_i htaken
        right
        cases u with
        | none => simp at hurl
        | some url =>
          simp only [Bool.or_eq_true, decide_eq_true_eq, Bool.not_eq_true', not_or,
            Bool.not_eq_false] at hurl
          have hval' := Bool.eq_false_iff.mpr hval
          cases sc with
          | none =>
            simp only at h htaken
            cases hg : generateShortCode s.urlDatabase draws with
            | none => simp [hg] at h
            | some code =>
              simp only [hg, Option.some.injEq, Prod.mk.injEq] at h
              exact ⟨url, code, rfl, hurl.1, hurl.2, hval', gen code hg, Or.inr rfl,
                h.1.symm, h.2.symm⟩
          | some sc =>
            simp only at h htaken
            by_cases hsc : sc = ""
            · simp only [hsc, ne_eq, not_true_eq_false, ite_false] at h htaken
              cases hg : generateShortCode s.urlDatabase draws with
              | none => simp [hg] at h
              | some code =>
                simp only [hg, Option.some.injEq, Prod.mk.injEq] at h
                exact ⟨url, code, rfl, hurl.1, hurl.2, hval', gen code hg, Or.inr rfl,
                  h.1.symm, h.2.symm⟩
            · simp only [ne_eq, hsc, not_false_eq_true, ite_true] at h htaken
              by_cases hm : matchesCodePattern sc = true
              · simp only [hm, Bool.not_true, Bool.false_eq_true, ite_false,
                  Option.some.injEq, Prod.mk.injEq] at h
                exact ⟨url, sc, rfl, hurl.1, hurl.2, hval', Bool.eq_false_iff.mpr htaken,
                  Or.inl ⟨rfl, hsc, hm⟩, h.1.symm, h.2.symm⟩
              · simp only [hm, Bool.not_eq_true] at h
                have hm' := Bool.eq_false_iff.mpr hm
                simp only [hm', Bool.not_false, ite_true] at h
                cases hg : generateShortCode s.urlDatabase draws with
                | none => simp [hg] at h
                | some code =>
                  simp only [hg, Option.some.injEq, Prod.mk.injEq] at h
                  exact ⟨url, code, rfl, hurl.1, hurl.2, hval', gen code hg, Or.inr rfl,
                    h.1.symm, h.2.symm⟩

theorem mem_mapSet {α : Type} {m : List (String × α)} {k : String} {v : α}
    {e : String × α} (h : e ∈ mapSet m k v) : e ∈ m ∨ e = (k, v) := by
  induction m with
  | nil => simpa [mapSet] using h
  | cons e₀ m ih =>
    obtain ⟨k₀, v₀⟩ := e₀
    unfold mapSet at h
    split at h
    · rename_i hk
      have hk' : k₀ = k := by simpa using hk
      rcases List.mem_cons.mp h with h | h
      · exact Or.inr (by rw [h, hk'])
      · exact Or.inl (List.mem_cons_of_mem _ h)
    · rcases List.mem_cons.mp h with h | h
      · exact Or.inl (by rw [h]; exact List.mem_cons_self _ _)
      · rcases ih h with h | h
        · exact Or.inl (List.mem_cons_of_mem _ h)
        · exact Or.inr h

theorem mapGet_mem {α : Type} {m : List (String × α)} {k : String} {v : α}
    (h : mapGet m k = some v) : (k, v) ∈ m := by
  induction m with
  | nil => simp [mapGet] at h
  | cons e₀ m ih =>
    obtain ⟨k₀, v₀⟩ := e₀
    unfold mapGet at h
    split at h
    · rename_i hk
      have hk' : k₀ = k := by simpa using hk
      cases h
      rw [hk']; exact List.mem_cons_self _ _
    · exact List.mem_cons_of_mem _ (ih h)

theorem mapHas_of_mem {α : Type} {m : List (String × α)} {e : String × α}
    (h : e ∈ m) : mapHas m e.1 = true := by
  induction m with
  | nil => simp at h
  | cons e₀ m ih =>
    obtain ⟨k₀, v₀⟩ := e₀
    rcases List.mem_cons.mp h with h | h
    · subst h; simp [mapHas]
    · simp [mapHas, ih h]

theorem keys_mapSet {α : Type} (m : List (String × α)) (k : String) (v : α) :
    (mapSet m k v).map Prod.fst =
      if mapHas m k then m.map Prod.fst else m.map Prod.fst ++ [k] := by
  induction m with
  | nil => simp [mapSet, mapHas]
  | cons e₀ m ih =>
    obtain ⟨k₀, v₀⟩ := e₀
    by_cases hk : k₀ = k
    · simp [mapSet, mapHas, hk]
    · by_cases hm : mapHas m k = true <;> simp [mapSet, mapHas, hk, ih, hm]

theorem mapHas_iff_mem_keys {α : Type} (m : List (String × α)) (k : String) :
    mapHas m k = true ↔ k ∈ m.map Prod.fst := by
  induction m with
  | nil => simp [mapHas]
  | cons e₀ m ih =>
    obtain ⟨k₀, v₀⟩ := e₀
    by_cases hk : k₀ = k
    · simp [mapHas, hk]
    · have hk' : ¬ k = k₀ := fun h => hk h.symm
      simp [mapHas, hk, hk', ih]

theorem resolve_not_found {s : Store} {code : String} (now : Nat) (req : RequestContext)
    (h : mapHas s.urlDatabase code = false) :
    resolve code now req s = (.notFound "Short URL not found", s) := by
  simp [resolve, h]

theorem resolve_expired {s : Store} {code : String} {now : Nat} (req : RequestContext)
    {d : UrlData} (hget : mapGet s.urlDatabase code = some d)
    (h : isAfter now d.expiryTime = true) :
    resolve code now req s = (.gone "Short URL has expired", s) := by
  have hhas : mapHas s.urlDatabase code = true := (mapHas_iff_get _ _).mpr ⟨d, hget⟩
  simp [resolve, hhas, hget, h]

theorem resolve_active {s : Store} {code : String} {now : Nat} (req : RequestContext)
    {d : UrlData} {clicks : List ClickData} (hget : mapGet s.urlDatabase code = some d)
    (h : isAfter now d.expiryTime = false) (hc : mapGet s.clickDatabase code = some clicks) :
    resolve code now req s =
      (.redirect d.originalUrl,
       ⟨mapSet s.urlDatabase code { d with clickCount := clicks.length + 1 },
        mapSet s.clickDatabase code (clicks ++ [clickOf now req])⟩) := by
  have hhas : mapHas s.urlDatabase code = true := (mapHas_iff_get _ _).mpr ⟨d, hget⟩
  simp [resolve, hhas, hget, h, hc, clickOf]

theorem resolve_no_clicks {s : Store} {code : String} {now : Nat} (req : RequestContext)
    {d : UrlData} (hget : mapGet s.urlDatabase code = some d)
    (h : isAfter now d.expiryTime = false) (hc : mapGet s.clickDatabase code = none) :
    resolve code now req s = (.internalError "Internal server error", s) := by
  have hhas : mapHas s.urlDatabase code = true := (mapHas_iff_get _ _).mpr ⟨d, hget⟩
  simp [resolve, hhas, hget, h, hc]

theorem resolve_store_cases (code : String) (now : Nat) (req : RequestContext) (s : Store) :
    (resolve code now req s).2 = s ∨
    ∃ d clicks, mapGet s.urlDatabase code = some d ∧
      mapGet s.clickDatabase code = some clicks ∧
      isAfter now d.expiryTime = false ∧
      resolve code now req s =
        (.redirect d.originalUrl,
         ⟨mapSet s.urlDatabase code { d with clickCount := clicks.length + 1 },
          mapSet s.clickDatabase code (clicks ++ [clickOf now req])⟩) := by
  cases hget : mapGet s.urlDatabase code with
  | none =>
    left
    rw [resolve_not_found now req ((mapGet_eq_none_iff _ _).mp hget)]
  | some d =>
    cases hexp : isAfter now d.expiryTime with
    | true => left; rw [resolve_expired req hget hexp]
    | false =>
      cases hc : mapGet s.clickDatabase code with
      | none => left; rw [resolve_no_clicks req hget hexp hc]
      | some clicks => exact Or.inr ⟨d, clicks, rfl, rfl, hexp, resolve_active req hget hexp hc⟩

theorem getStats_store (code : String) (s : Store) : (getStats code s).2 = s := by
  unfold getStats
  split
  · rfl
  · split <;> rfl

theorem listAll_store (PORT : String) (s : Store) : (listAll PORT s).2 = s := rfl

theorem urlAlphabet_urlSafe : ∀ c ∈ urlAlphabet, isUrlSafeChar c = true := by decide

theorem urlAlphabet_getD_mem (i : Nat) : urlAlphabet.getD (i &&& 63) 'u' ∈ urlAlphabet := by
  have hlt : i &&& 63 < urlAlphabet.length := by
    have h1 : i &&& 63 ≤ 63 := Nat.and_le_right
    have h2 : urlAlphabet.length = 64 := by decide
    omega
  rw [List.getD_eq_getElem _ _ hlt]
  exact List.getElem_mem hlt

theorem nanoid_isNanoid6 (pool : List Nat) : isNanoid6 (nanoid 6 pool) = true := by
  simp only [isNanoid6, nanoid, Bool.and_eq_true, decide_eq_true_eq, List.all_eq_true]
  refine ⟨by simp [String.length], ?_⟩
  intro c hc
  simp only [List.mem_map] at hc
  obtain ⟨i, _, rfl⟩ := hc
  simpa using urlAlphabet_getD_mem _

theorem isNanoid6_urlSafe {code : String} (h : isNanoid6 code = true) :
    matchesUrlSafePattern code = true := by
  simp only [isNanoid6, Bool.and_eq_true, decide_eq_true_eq, List.all_eq_true] at h
  simp only [matchesUrlSafePattern, Bool.and_eq_true, decide_eq_true_eq, List.all_eq_true]
  refine ⟨⟨by omega, by omega⟩, fun c hc => ?_⟩
  have := h.2 c hc
  exact urlAlphabet_urlSafe c (by simpa using this)

theorem matchesCodePattern_urlSafe {code : String} (h : matchesCodePattern code = true) :
    matchesUrlSafePattern code = true := by
  simp only [matchesCodePattern, Bool.and_eq_true, decide_eq_true_eq, List.all_eq_true] at h
  simp only [matchesUrlSafePattern, Bool.and_eq_true, decide_eq_true_eq, List.all_eq_true]
  refine ⟨h.1, fun c hc => ?_⟩
  simp [isUrlSafeChar, h.2 c hc]

theorem matchesCodePattern_ne_empty {code : String} (h : matchesCodePattern code = true) :
    code ≠ "" := by
  rintro rfl
  simp [matchesCodePattern] at h

/-- Induction over the reachable stores, with the two writing steps spelled out: a
successful create adds a record under a code that was not a key, a successful redirect
appends one click to a stored code. -/
theorem Reachable.store_induction {isURL : String → Bool} {PORT : String}
    (P : Store → Prop) (h0 : P Store.empty)
    (hcreate : ∀ (s : Store) (body : CreateBody) (code : String) (t1 t2 : Nat),
      Reachable isURL PORT s → P s →
      mapHas s.urlDatabase code = false →
      (∃ url, body.url = some url ∧ url ≠ "" ∧ isURL url = true) →
      validityRejected (body.validity.getD (.num (.fin 30))) = false →
      (matchesCodePattern code = true ∨ isNanoid6 code = true) →
      P ⟨mapSet s.urlDatabase code (newRecord body code t1 t2),
         mapSet s.clickDatabase code []⟩)
    (hresolve : ∀ (s : Store) (code : String) (now : Nat) (req : RequestContext)
      (d : UrlData) (clicks : List ClickData),
      Reachable isURL PORT s → P s →
      mapGet s.urlDatabase code = some d → mapGet s.clickDatabase code = some clicks →
      P ⟨mapSet s.urlDatabase code { d with clickCount := clicks.length + 1 },
         mapSet s.clickDatabase code (clicks ++ [clickOf now req])⟩) :
    ∀ s, Reachable isURL PORT s → P s := by
  intro s hs
  induction hs with
  | init => exact h0
  | @create s s' r body t1 t2 draws hs h ih =>
    rcases createShortUrl_cases h with ⟨rfl, _⟩ | ⟨url, code, hu, hne, hok, hval, hfree, hshape, _, rfl⟩
    · exact ih
    · refine hcreate s body code t1 t2 hs ih hfree ⟨url, hu, hne, hok⟩ hval ?_
      rcases hshape with ⟨_, _, hm⟩ | hg
      · exact Or.inl hm
      · obtain ⟨_, pool, _, rfl⟩ := generateShortCode_some hg
        exact Or.inr (nanoid_isNanoid6 pool)
  | @resolve s code now req hs ih =>
    rcases resolve_store_cases code now req s with h | ⟨d, clicks, hd, hc, _, h⟩
    · rw [h]; exact ih
    · rw [h]; exact hresolve s code now req d clicks hs ih hd hc
  | @getStats s code hs ih => rw [getStats_store]; exact ih
  | @listAll s hs ih => rw [listAll_store]; exact ih

/-- In a reachable store the two maps have the same keys. -/
theorem Reachable.sameKeys {isURL : String → Bool} {PORT : String} {s : Store}
    (hs : Reachable isURL PORT s) (k : String) :
    mapHas s.clickDatabase k = mapHas s.urlDatabase k := by
  revert k
  refine Reachable.store_induction (fun s => ∀ k, mapHas s.clickDatabase k = mapHas s.urlDatabase k)
    ?_ ?_ ?_ s hs
  · intro k; rfl
  · intro s body code t1 t2 _ ih _ _ _ _ k
    simp only [mapHas_mapSet, ih k]
  · intro s code now req d clicks _ ih _ _ k
    simp only [mapHas_mapSet, ih k]

/-- In a reachable store no code is stored twice. -/
theorem Reachable.nodupKeys {isURL : String → Bool} {PORT : String} {s : Store}
    (hs : Reachable isURL PORT s) : (s.urlDatabase.map Prod.fst).Nodup := by
  refine Reachable.store_induction (fun s => (s.urlDatabase.map Prod.fst).Nodup)
    ?_ ?_ ?_ s hs
  · simp [Store.empty]
  · intro s body code t1 t2 _ ih hfree _ _ _
    simp only [keys_mapSet, hfree, Bool.false_eq_true, ite_false]
    refine List.Nodup.append ih (List.nodup_singleton _) ?_
    intro k hk hk'
    rw [List.mem_singleton] at hk'
    subst hk'
    rw [← mapHas_iff_mem_keys, hfree] at hk
    exact Bool.noConfusion hk
  · intro s code now req d clicks _ ih hd _
    have hhas : mapHas s.urlDatabase code = true := (mapHas_iff_get _ _).mpr ⟨d, hd⟩
    simpa only [keys_mapSet, hhas, ite_true] using ih

/-- Every key of a reachable store passed the custom-code test or came out of the
generator. -/
theorem Reachable.keyShape {isURL : String → Bool} {PORT : String} {s : Store}
    (hs : Reachable isURL PORT s) :
    ∀ e ∈ s.urlDatabase, matchesCodePattern e.1 = true ∨ isNanoid6 e.1 = true := by
  refine Reachable.store_induction
    (fun s => ∀ e ∈ s.urlDatabase, matchesCodePattern e.1 = true ∨ isNanoid6 e.1 = true)
    ?_ ?_ ?_ s hs
  · intro e he; simp [Store.empty] at he
  · intro s body code t1 t2 _ ih _ _ _ hshape e he
    rcases mem_mapSet he with h | h
    · exact ih e h
    · rw [h]; exact hshape
  · intro s code now req d clicks _ ih hd _ e he
    rcases mem_mapSet he with h | h
    · exact ih e h
    · rw [h]; exact ih (code, d) (mapGet_mem hd)

/-- Every record of a reachable store holds a non-empty URL that `isURL` accepted. -/
theorem Reachable.urlsAccepted {isURL : String → Bool} {PORT : String} {s : Store}
    (hs : Reachable isURL PORT s) :
    ∀ e ∈ s.urlDatabase, e.2.originalUrl ≠ "" ∧ isURL e.2.originalUrl = true := by
  refine Reachable.store_induction
    (fun s => ∀ e ∈ s.urlDatabase, e.2.originalUrl ≠ "" ∧ isURL e.2.originalUrl = true)
    ?_ ?_ ?_ s hs
  · intro e he; simp [Store.empty] at he
  · intro s body code t1 t2 _ ih _ hurl _ _ e he
    rcases mem_mapSet he with h | h
    · exact ih e h
    · obtain ⟨url, hu, hne, hok⟩ := hurl
      rw [h]
      simpa [newRecord, hu] using And.intro hne hok
  · intro s code now req d clicks _ ih hd _ e he
    rcases mem_mapSet he with h | h
    · exact ih e h
    · rw [h]; exact ih (code, d) (mapGet_mem hd)

theorem storeAbc_created :
    createShortUrl sampleIsURL "5000"
        ⟨some "https://example.com", some (.num (.fin 1)), some "abc"⟩ 0 0 [] Store.empty
      = some (.created "http://localhost:5000/abc" (some 60000), storeAbc) := by
  decide

theorem storeAbc_reachable : Reachable sampleIsURL "5000" storeAbc :=
  Reachable.create _ 0 0 [] Reachable.init storeAbc_created

theorem storeDashes_created :
    createShortUrl sampleIsURL "5000"
        ⟨some "https://example.com", none, none⟩ 0 0 [[8, 8, 8, 8, 8, 8]] Store.empty
      = some (.created "http://localhost:5000/------" (some 1800000), storeDashes) := by
  decide

theorem storeDashes_reachable : Reachable sampleIsURL "5000" storeDashes :=
  Reachable.create _ 0 0 [[8, 8, 8, 8, 8, 8]] Reachable.init storeDashes_created

/-- One request at a time, string fields: a create that succeeds on a reachable store
stores the new record under a code
that was a key of neither map before the call; the record and the empty click sequence
are appended, the stored codes stay pairwise distinct, and every record and click
sequence already stored is read back unchanged. -/
theorem create_assigns_fresh_code (isURL : String → Bool) (PORT : String) (s s' : Store)
    (body : CreateBody) (t1 t2 : Nat) (draws : List (List Nat)) (link : String)
    (expiry : Option Nat) (hs : Reachable isURL PORT s)
    (h : createShortUrl isURL PORT body t1 t2 draws s = some (.created link expiry, s')) :
    ∃ code urlData,
      link = shortLinkOf PORT code ∧ urlData.shortCode = code ∧
      mapHas s.urlDatabase code = false ∧ mapHas s.clickDatabase code = false ∧
      s'.urlDatabase = s.urlDatabase ++ [(code, urlData)] ∧
      s'.clickDatabase = s.clickDatabase ++ [(code, [])] ∧
      (s'.urlDatabase.map Prod.fst).Nodup ∧
      ∀ k, mapHas s.urlDatabase k = true →
        mapGet s'.urlDatabase k = mapGet s.urlDatabase k ∧
        mapGet s'.clickDatabase k = mapGet s.clickDatabase k := by
  have hs' : Reachable isURL PORT s' := Reachable.create body t1 t2 draws hs h
  rcases createShortUrl_cases h with ⟨_, msg, hr⟩ | ⟨url, code, _, _, _, _, hfree, _, hr, hst⟩
  · cases hr
  · have hfreeC : mapHas s.clickDatabase code = false := by rw [hs.sameKeys, hfree]
    have hlink : link = shortLinkOf PORT code := by
      injection hr
    refine ⟨code, newRecord body code t1 t2, hlink, rfl, hfree, hfreeC, ?_, ?_,
      hs'.nodupKeys, ?_⟩
    · rw [hst, mapSet_of_not_has _ _ _ hfree]
    · rw [hst, mapSet_of_not_has _ _ _ hfreeC]
    · intro k hk
      have hne : code ≠ k := by
        rintro rfl
        rw [hfree] at hk
        exact Bool.noConfusion hk
      rw [hst]
      simp only [mapGet_mapSet, hne, if_false, and_self]

theorem getStats_not_found {s : Store} {code : String}
    (h : mapHas s.urlDatabase code = false) :
    getStats code s = (.notFound "Short URL not found", s) := by
  simp [getStats, h]

theorem getStats_found {s : Store} {code : String} {d : UrlData}
    (hget : mapGet s.urlDatabase code = some d) :
    getStats code s =
      (.stats ⟨code, d.originalUrl, d.createdAt, d.expiryTime,
          ((mapGet s.clickDatabase code).getD []).length,
          ((mapGet s.clickDatabase code).getD []).map fun click =>
            ⟨click.timestamp, (jsOr click.referrer (some "Direct")).getD "Direct",
             click.location, click.userAgent⟩⟩, s) := by
  have hhas : mapHas s.urlDatabase code = true := (mapHas_iff_get _ _).mpr ⟨d, hget⟩
  simp [getStats, hhas, hget]

theorem isAfter_eq_false_of_le {now e : Nat} (h : now ≤ e) : isAfter now (some e) = false := by
  simp [isAfter, h]

theorem isAfter_eq_true_of_lt {now e : Nat} (h : e < now) : isAfter now (some e) = true := by
  simp [isAfter, h]

/-- C2: on a reachable store, resolving a stored code at an instant strictly before the
record's expiry redirects (302) to the record's original URL and appends one click, so
the `totalClicks` that `getStats` reports right after is one more than the `totalClicks`
it reported right before. -/
theorem resolve_before_expiry_redirects (isURL : String → Bool) (PORT : String) (s : Store)
    (code : String) (now : Nat) (req : RequestContext) (urlData : UrlData)
    (expiresAt : Nat) (hs : Reachable isURL PORT s)
    (hget : mapGet s.urlDatabase code = some urlData)
    (hexp : urlData.expiryTime = some expiresAt) (hnow : now < expiresAt) :
    (resolve code now req s).1 = .redirect urlData.originalUrl ∧
    (resolve code now req s).1.status = 302 ∧
    ∃ clicks before after,
      mapGet s.clickDatabase code = some clicks ∧
      mapGet (resolve code now req s).2.clickDatabase code
        = some (clicks ++ [clickOf now req]) ∧
      (getStats code s).1 = .stats before ∧ before.totalClicks = clicks.length ∧
      (getStats code (resolve code now req s).2).1 = .stats after ∧
      after.totalClicks = before.totalClicks + 1 := by
  have hhas : mapHas s.urlDatabase code = true := (mapHas_iff_get _ _).mpr ⟨urlData, hget⟩
  have hhasC : mapHas s.clickDatabase code = true := by rw [hs.sameKeys, hhas]
  obtain ⟨clicks, hc⟩ := (mapHas_iff_get _ _).mp hhasC
  have hnot : isAfter now urlData.expiryTime = false := by
    rw [hexp]; exact isAfter_eq_false_of_le (Nat.le_of_lt hnow)
  have hres := resolve_active req hget hnot hc
  have hget' : mapGet (resolve code now req s).2.urlDatabase code
      = some { urlData with clickCount := clicks.length + 1 } := by
    rw [hres]; simp [mapGet_mapSet]
  have hc' : mapGet (resolve code now req s).2.clickDatabase code
      = some (clicks ++ [clickOf now req]) := by
    rw [hres]; simp [mapGet_mapSet]
  refine ⟨by rw [hres], by rw [hres]; rfl, clicks, _, _, hc, hc',
    congrArg Prod.fst (getStats_found hget), ?_,
    congrArg Prod.fst (getStats_found hget'), ?_⟩
  · simp [hc]
  · simp [hc, hc']

theorem resolve_before_expiry_redirects_witness :
    Reachable sampleIsURL "5000" storeAbc ∧
    mapGet storeAbc.urlDatabase "abc"
      = some ⟨"https://example.com", "abc", 0, some 60000, .num (.fin 1), 0⟩ ∧
    (⟨"https://example.com", "abc", 0, some 60000, .num (.fin 1), 0⟩ : UrlData).expiryTime
      = some 60000 ∧
    59999 < 60000 ∧
    (resolve "abc" 59999 sampleRequest storeAbc).1 = .redirect "https://example.com" ∧
    (resolve "abc" 59999 sampleRequest storeAbc).1.status = 302 ∧
    ∃ clicks before after,
      mapGet storeAbc.clickDatabase "abc" = some clicks ∧
      mapGet (resolve "abc" 59999 sampleRequest storeAbc).2.clickDatabase "abc"
        = some (clicks ++ [clickOf 59999 sampleRequest]) ∧
      (getStats "abc" storeAbc).1 = .stats before ∧ before.totalClicks = clicks.length ∧
      (getStats "abc" (resolve "abc" 59999 sampleRequest storeAbc).2).1 = .stats after ∧
      after.totalClicks = before.totalClicks + 1 :=
  ⟨storeAbc_reachable, by decide, rfl, by decide,
   resolve_before_expiry_redirects sampleIsURL "5000" storeAbc "abc" 59999 sampleRequest
     ⟨"https://example.com", "abc", 0, some 60000, .num (.fin 1), 0⟩ 60000
     storeAbc_reachable (by decide) rfl (by decide)⟩

/-- C3 as stated fails at the instant `now = expiresAt`: the record of `abc` in the
reachable store `storeAbc` expires at `60000`, and the redirect handler at clock reading
`60000` answers 302 (not 410), appends a click and sets the stored `clickCount` to 1. -/
theorem resolve_at_expiry_instant_counterexample :
    createShortUrl sampleIsURL "5000"
        ⟨some "https://example.com", some (.num (.fin 1)), some "abc"⟩ 0 0 [] Store.empty
      = some (.created "http://localhost:5000/abc" (some 60000), storeAbc) ∧
    (mapGet storeAbc.urlDatabase "abc").map UrlData.expiryTime = some (some 60000) ∧
    (resolve "abc" 60000 sampleRequest storeAbc).1 = .redirect "https://example.com" ∧
    (resolve "abc" 60000 sampleRequest storeAbc).1.status ≠ 410 ∧
    mapGet storeAbc.clickDatabase "abc" = some [] ∧
    mapGet (resolve "abc" 60000 sampleRequest storeAbc).2.clickDatabase "abc"
      = some [⟨60000, none, none, none, "New York, US"⟩] ∧
    (mapGet (resolve "abc" 60000 sampleRequest storeAbc).2.urlDatabase "abc").map
      UrlData.clickCount = some 1 := by
  decide

/-- C3, amended: for a stored code and a clock reading strictly after the record's
expiry, the redirect handler answers 410 `Short URL has expired` and returns the store
as it was (click sequences and stored `clickCount`s included); at any reading up to and
including the expiry instant the answer is not 410. -/
theorem resolve_after_expiry_gone (s : Store) (code : String) (now : Nat)
    (req : RequestContext) (urlData : UrlData) (expiresAt : Nat)
    (hget : mapGet s.urlDatabase code = some urlData)
    (hexp : urlData.expiryTime = some expiresAt) :
    (expiresAt < now →
      resolve code now req s = (.gone "Short URL has expired", s) ∧
      (resolve code now req s).1.status = 410) ∧
    (now ≤ expiresAt → (resolve code now req s).1.status ≠ 410) := by
  constructor
  · intro hnow
    have hres := resolve_expired req hget (by rw [hexp]; exact isAfter_eq_true_of_lt hnow)
    exact ⟨hres, by rw [hres]; rfl⟩
  · intro hnow
    have hnot : isAfter now urlData.expiryTime = false := by
      rw [hexp]; exact isAfter_eq_false_of_le hnow
    cases hc : mapGet s.clickDatabase code with
    | none => rw [resolve_no_clicks req hget hnot hc]; simp [Response.status]
    | some clicks => rw [resolve_active req hget hnot hc]; simp [Response.status]

theorem resolve_after_expiry_gone_witness :
    mapGet storeAbc.urlDatabase "abc"
      = some ⟨"https://example.com", "abc", 0, some 60000, .num (.fin 1), 0⟩ ∧
    (⟨"https://example.com", "abc", 0, some 60000, .num (.fin 1), 0⟩ : UrlData).expiryTime
      = some 60000 ∧
    (60000 < 60001 →
      resolve "abc" 60001 sampleRequest storeAbc = (.gone "Short URL has expired", storeAbc) ∧
      (resolve "abc" 60001 sampleRequest storeAbc).1.status = 410) ∧
    (60001 ≤ 60000 → (resolve "abc" 60001 sampleRequest storeAbc).1.status ≠ 410) :=
  ⟨by decide, rfl,
   resolve_after_expiry_gone storeAbc "abc" 60001 sampleRequest
     ⟨"https://example.com", "abc", 0, some 60000, .num (.fin 1), 0⟩ 60000 (by decide) rfl⟩

/-- C4: for a code that is not a key of the record map, both the redirect handler and
the statistics handler answer 404 `Short URL not found` and return the store unchanged,
record map and click map alike. -/
theorem unknown_code_not_found (s : Store) (code : String) (now : Nat)
    (req : RequestContext) (h : mapHas s.urlDatabase code = false) :
    resolve code now req s = (.notFound "Short URL not found", s) ∧
    getStats code s = (.notFound "Short URL not found", s) ∧
    (resolve code now req s).1.status = 404 ∧ (getStats code s).1.status = 404 ∧
    (resolve code now req s).2.urlDatabase = s.urlDatabase ∧
    (resolve code now req s).2.clickDatabase = s.clickDatabase ∧
    (getStats code s).2.urlDatabase = s.urlDatabase ∧
    (getStats code s).2.clickDatabase = s.clickDatabase := by
  have h1 := resolve_not_found now req h
  have h2 := getStats_not_found h
  refine ⟨h1, h2, ?_, ?_, ?_, ?_, ?_, ?_⟩ <;> simp [h1, h2, Response.status]

theorem unknown_code_not_found_witness :
    mapHas storeAbc.urlDatabase "xyz" = false ∧
    resolve "xyz" 7 sampleRequest storeAbc = (.notFound "Short URL not found", storeAbc) ∧
    getStats "xyz" storeAbc = (.notFound "Short URL not found", storeAbc) ∧
    (resolve "xyz" 7 sampleRequest storeAbc).1.status = 404 ∧
    (getStats "xyz" storeAbc).1.status = 404 ∧
    (resolve "xyz" 7 sampleRequest storeAbc).2.urlDatabase = storeAbc.urlDatabase ∧
    (resolve "xyz" 7 sampleRequest storeAbc).2.clickDatabase = storeAbc.clickDatabase ∧
    (getStats "xyz" storeAbc).2.urlDatabase = storeAbc.urlDatabase ∧
    (getStats "xyz" storeAbc).2.clickDatabase = storeAbc.clickDatabase :=
  ⟨by decide, unknown_code_not_found storeAbc "xyz" 7 sampleRequest (by decide)⟩

/-- C5 as stated fails for generated codes: with a valid URL, the default validity and
no custom code, a create whose `nanoid(6)` reads the bytes `8, 8, 8, 8, 8, 8` succeeds
and stores the record under `------`, which the pattern of line 73 (3 to 10 letters or
digits) rejects. -/
theorem generated_code_counterexample :
    createShortUrl sampleIsURL "5000"
        ⟨some "https://example.com", none, none⟩ 0 0 [[8, 8, 8, 8, 8, 8]] Store.empty
      = some (.created "http://localhost:5000/------" (some 1800000), storeDashes) ∧
    mapHas storeDashes.urlDatabase "------" = true ∧
    matchesCodePattern "------" = false := by
  decide

/-- C5, amended: the code assigned by a successful create is either the supplied custom
code, which matches `[A-Za-z0-9]` 3 to 10 times, or the generator's result, which has
exactly 6 symbols of the `nanoid` alphabet `A-Za-z0-9_-`; in both cases it matches
`[A-Za-z0-9_-]` 3 to 10 times, and so does every key of a reachable store. -/
theorem created_code_shape (isURL : String → Bool) (PORT : String) (s s' : Store)
    (body : CreateBody) (t1 t2 : Nat) (draws : List (List Nat)) (link : String)
    (expiry : Option Nat)
    (h : createShortUrl isURL PORT body t1 t2 draws s = some (.created link expiry, s'))
    (s₀ : Store) (hs₀ : Reachable isURL PORT s₀) :
    (∃ code, link = shortLinkOf PORT code ∧ mapHas s'.urlDatabase code = true ∧
      ((body.shortcode = some code ∧ matchesCodePattern code = true) ∨
        (generateShortCode s.urlDatabase draws = some code ∧ isNanoid6 code = true)) ∧
      matchesUrlSafePattern code = true) ∧
    ∀ e ∈ s₀.urlDatabase,
      (matchesCodePattern e.1 = true ∨ isNanoid6 e.1 = true) ∧
      matchesUrlSafePattern e.1 = true := by
  constructor
  · rcases createShortUrl_cases h with ⟨_, msg, hr⟩ | ⟨url, code, _, _, _, _, _, hshape, hr, hst⟩
    · cases hr
    · have hlink : link = shortLinkOf PORT code := by injection hr
      have hkey : mapHas s'.urlDatabase code = true := by
        rw [hst]; simp [mapHas_mapSet]
      rcases hshape with ⟨hsc, _, hm⟩ | hg
      · exact ⟨code, hlink, hkey, Or.inl ⟨hsc, hm⟩, matchesCodePattern_urlSafe hm⟩
      · obtain ⟨_, pool, _, hp⟩ := generateShortCode_some hg
        have h6 : isNanoid6 code = true := by rw [hp]; exact nanoid_isNanoid6 pool
        exact ⟨code, hlink, hkey, Or.inr ⟨hg, h6⟩, isNanoid6_urlSafe h6⟩
  · intro e he
    have hshape := hs₀.keyShape e he
    refine ⟨hshape, ?_⟩
    rcases hshape with hm | h6
    · exact matchesCodePattern_urlSafe hm
    · exact isNanoid6_urlSafe h6

theorem created_code_shape_witness :
    createShortUrl sampleIsURL "5000" ⟨some "https://example.com", none, none⟩ 5 5
        [[0, 1, 2, 3, 4, 5]] storeAbc
      = some (.created "http://localhost:5000/useand" (some 1800005), storeAbcUseand) ∧
    Reachable sampleIsURL "5000" storeDashes ∧
    (∃ code, "http://localhost:5000/useand" = shortLinkOf "5000" code ∧
      mapHas storeAbcUseand.urlDatabase code = true ∧
      (((⟨some "https://example.com", none, none⟩ : CreateBody).shortcode = some code ∧
          matchesCodePattern code = true) ∨
        (generateShortCode storeAbc.urlDatabase [[0, 1, 2, 3, 4, 5]] = some code ∧
          isNanoid6 code = true)) ∧
      matchesUrlSafePattern code = true) ∧
    ∀ e ∈ storeDashes.urlDatabase,
      (matchesCodePattern e.1 = true ∨ isNanoid6 e.1 = true) ∧
      matchesUrlSafePattern e.1 = true :=
  ⟨by decide, storeDashes_reachable,
   created_code_shape sampleIsURL "5000" storeAbc storeAbcUseand
     ⟨some "https://example.com", none, none⟩ 5 5 [[0, 1, 2, 3, 4, 5]]
     "http://localhost:5000/useand" (some 1800005) (by decide) storeDashes
     storeDashes_reachable⟩

/-- C6, the code at the failing inputs: with a valid URL, `validity = 0` and
`validity = null` are not rejected (the guard `validity &&` of line 56 skips the test on
every falsy value): the create answers 201 and stores a record with that validity,
expiring at the creation instant; `validity = -1` is rejected with 400. -/
theorem create_accepts_zero_validity :
    createShortUrl sampleIsURL "5000"
        ⟨some "https://example.com", some (.num (.fin 0)), some "abc"⟩ 7 7 [] Store.empty
      = some (.created "http://localhost:5000/abc" (some 7),
          ⟨[("abc", ⟨"https://example.com", "abc", 7, some 7, .num (.fin 0), 0⟩)],
           [("abc", [])]⟩) ∧
    createShortUrl sampleIsURL "5000"
        ⟨some "https://example.com", some .null, some "abc"⟩ 7 7 [] Store.empty
      = some (.created "http://localhost:5000/abc" (some 7),
          ⟨[("abc", ⟨"https://example.com", "abc", 7, some 7, .null, 0⟩)],
           [("abc", [])]⟩) ∧
    createShortUrl sampleIsURL "5000"
        ⟨some "https://example.com", some (.num (.fin (-1))), some "abc"⟩ 7 7 [] Store.empty
      = some (.badRequest "Validity must be a positive integer (minutes)", Store.empty) := by
  decide

theorem createShortUrl_taken {isURL : String → Bool} {PORT : String} {body : CreateBody}
    {url code : String} (t1 t2 : Nat) (draws : List (List Nat)) {s : Store}
    (hurl : body.url = some url) (hne : url ≠ "") (hok : isURL url = true)
    (hval : validityRejected (body.validity.getD (.num (.fin 30))) = false)
    (hsc : body.shortcode = some code) (hcode : code ≠ "")
    (hkey : mapHas s.urlDatabase code = true) :
    createShortUrl isURL PORT body t1 t2 draws s
      = some (.badRequest "Shortcode already exists. Please choose a different one.", s) := by
  simp [createShortUrl, hurl, hne, hok, hval, hsc, hcode, hkey]

theorem createShortUrl_custom {isURL : String → Bool} {PORT : String} {body : CreateBody}
    {url code : String} (t1 t2 : Nat) (draws : List (List Nat)) {s : Store}
    (hurl : body.url = some url) (hne : url ≠ "") (hok : isURL url = true)
    (hval : validityRejected (body.validity.getD (.num (.fin 30))) = false)
    (hsc : body.shortcode = some code) (hkey : mapHas s.urlDatabase code = false)
    (hm : matchesCodePattern code = true) :
    createShortUrl isURL PORT body t1 t2 draws s
      = some (.created (shortLinkOf PORT code) (newRecord body code t1 t2).expiryTime,
          ⟨mapSet s.urlDatabase code (newRecord body code t1 t2),
           mapSet s.clickDatabase code []⟩) := by
  have hcode : code ≠ "" := matchesCodePattern_ne_empty hm
  simp [createShortUrl, hurl, hne, hok, hval, hsc, hcode, hkey, hm, newRecord]

theorem createShortUrl_generated {isURL : String → Bool} {PORT : String} {body : CreateBody}
    {url code : String} (t1 t2 : Nat) {draws : List (List Nat)} {s : Store}
    (hurl : body.url = some url) (hne : url ≠ "") (hok : isURL url = true)
    (hval : validityRejected (body.validity.getD (.num (.fin 30))) = false)
    (hsc : body.shortcode = none ∨
      ∃ sc, body.shortcode = some sc ∧ mapHas s.urlDatabase sc = false ∧
        matchesCodePattern sc = false)
    (hg : generateShortCode s.urlDatabase draws = some code) :
    createShortUrl isURL PORT body t1 t2 draws s
      = some (.created (shortLinkOf PORT code) (newRecord body code t1 t2).expiryTime,
          ⟨mapSet s.urlDatabase code (newRecord body code t1 t2),
           mapSet s.clickDatabase code []⟩) := by
  rcases hsc with hsc | ⟨sc, hsc, hkey, hm⟩
  · simp [createShortUrl, hurl, hne, hok, hval, hsc, hg, newRecord]
  · by_cases hcode : sc = ""
    · simp [createShortUrl, hurl, hne, hok, hval, hsc, hcode, hg, newRecord]
    · simp [createShortUrl, hurl, hne, hok, hval, hsc, hcode, hkey, hm, hg, newRecord]

theorem generateShortCode_of_free {db : List (String × UrlData)} {draws : List (List Nat)}
    (h : ∃ pool ∈ draws, mapHas db (nanoid 6 pool) = false) :
    ∃ code, generateShortCode db draws = some code := by
  induction draws with
  | nil => obtain ⟨_, hp, _⟩ := h; simp at hp
  | cons pool rest ih =>
    unfold generateShortCode
    split
    · rename_i hhas
      obtain ⟨p, hp, hfree⟩ := h
      rcases List.mem_cons.mp hp with rfl | hp
      · rw [hfree] at hhas; exact Bool.noConfusion hhas
      · exact ih ⟨p, hp, hfree⟩
    · exact ⟨_, rfl⟩

/-- C7: with a valid URL and a validity that passes line 56, a create whose custom code
is already a key answers 400 `Shortcode already exists. Please choose a different one.`
and returns the store unchanged; and when the custom code matches the pattern and is not
yet a key, the create succeeds under that code and every later create with the same code
fails in that way. -/
theorem create_code_taken (isURL : String → Bool) (PORT : String) (s : Store)
    (body : CreateBody) (t1 t2 : Nat) (draws : List (List Nat)) (url code : String)
    (hurl : body.url = some url) (hne : url ≠ "") (hok : isURL url = true)
    (hval : validityRejected (body.validity.getD (.num (.fin 30))) = false)
    (hsc : body.shortcode = some code) (hcode : code ≠ "") :
    (mapHas s.urlDatabase code = true →
      createShortUrl isURL PORT body t1 t2 draws s
        = some (.badRequest "Shortcode already exists. Please choose a different one.", s) ∧
      (Response.badRequest "Shortcode already exists. Please choose a different one.").status
        = 400) ∧
    (mapHas s.urlDatabase code = false → matchesCodePattern code = true →
      ∃ expiry s₁,
        createShortUrl isURL PORT body t1 t2 draws s
          = some (.created (shortLinkOf PORT code) expiry, s₁) ∧
        ∀ (t1' t2' : Nat) (draws' : List (List Nat)),
          createShortUrl isURL PORT body t1' t2' draws' s₁
            = some (.badRequest "Shortcode already exists. Please choose a different one.",
                s₁)) := by
  refine ⟨fun hkey => ⟨createShortUrl_taken t1 t2 draws hurl hne hok hval hsc hcode hkey, rfl⟩,
    fun hkey hm => ⟨_, _, createShortUrl_custom t1 t2 draws hurl hne hok hval hsc hkey hm,
      fun t1' t2' draws' => ?_⟩⟩
  exact createShortUrl_taken t1' t2' draws' hurl hne hok hval hsc hcode
    (by simp [mapHas_mapSet])

theorem create_code_taken_witness :
    (⟨some "https://example.com", some (.num (.fin 1)), some "abc"⟩ : CreateBody).url
      = some "https://example.com" ∧
    "https://example.com" ≠ "" ∧ sampleIsURL "https://example.com" = true ∧
    validityRejected
      ((⟨some "https://example.com", some (.num (.fin 1)), some "abc"⟩ : CreateBody).validity.getD
        (.num (.fin 30))) = false ∧
    (⟨some "https://example.com", some (.num (.fin 1)), some "abc"⟩ : CreateBody).shortcode
      = some "abc" ∧
    "abc" ≠ "" ∧
    (mapHas Store.empty.urlDatabase "abc" = true →
      createShortUrl sampleIsURL "5000"
          ⟨some "https://example.com", some (.num (.fin 1)), some "abc"⟩ 0 0 [] Store.empty
        = some (.badRequest "Shortcode already exists. Please choose a different one.",
            Store.empty) ∧
      (Response.badRequest "Shortcode already exists. Please choose a different one.").status
        = 400) ∧
    (mapHas Store.empty.urlDatabase "abc" = false → matchesCodePattern "abc" = true →
      ∃ expiry s₁,
        createShortUrl sampleIsURL "5000"
            ⟨some "https://example.com", some (.num (.fin 1)), some "abc"⟩ 0 0 [] Store.empty
          = some (.created (shortLinkOf "5000" "abc") expiry, s₁) ∧
        ∀ (t1' t2' : Nat) (draws' : List (List Nat)),
          createShortUrl sampleIsURL "5000"
              ⟨some "https://example.com", some (.num (.fin 1)), some "abc"⟩ t1' t2' draws' s₁
            = some (.badRequest "Shortcode already exists. Please choose a different one.",
                s₁)) :=
  ⟨rfl, by decide, by decide, by decide, rfl, by decide,
   create_code_taken sampleIsURL "5000" Store.empty
     ⟨some "https://example.com", some (.num (.fin 1)), some "abc"⟩ 0 0 []
     "https://example.com" "abc" rfl (by decide) (by decide) (by decide) rfl (by decide)⟩

/-- C8 as stated fails in two ways.  The reachable store `storeDashes` holds the generated
key `------`, which does not match the pattern; a create that supplies `------` as custom
code is rejected with 400 (the key test of line 66 runs before the pattern test of
line 73).  And on the empty store, a create that supplies `------` while `nanoid(6)`
returns `------` succeeds with the supplied string as key. -/
theorem invalid_custom_code_counterexample :
    createShortUrl sampleIsURL "5000"
        ⟨some "https://example.com", none, none⟩ 0 0 [[8, 8, 8, 8, 8, 8]] Store.empty
      = some (.created "http://localhost:5000/------" (some 1800000), storeDashes) ∧
    matchesCodePattern "------" = false ∧
    createShortUrl sampleIsURL "5000"
        ⟨some "https://example.com", none, some "------"⟩ 1 1 [[0, 1, 2, 3, 4, 5]] storeDashes
      = some (.badRequest "Shortcode already exists. Please choose a different one.",
          storeDashes) ∧
    createShortUrl sampleIsURL "5000"
        ⟨some "https://example.com", none, some "------"⟩ 0 0 [[8, 8, 8, 8, 8, 8]] Store.empty
      = some (.created "http://localhost:5000/------" (some 1800000), storeDashes) ∧
    mapHas storeDashes.urlDatabase "------" = true := by
  decide

/-- C8, amended: with a valid URL and a validity that passes line 56, a create whose
custom code does not match the pattern and is not a key is not rejected: as soon as the
random source holds a draw that is not a key, the create answers 201 and appends the
record under the generator's result, a six-symbol `nanoid` code that was not a key; the
supplied string is a key afterwards only if it is that generated code. -/
theorem create_invalid_custom_code_falls_back (isURL : String → Bool) (PORT : String)
    (s : Store) (body : CreateBody) (t1 t2 : Nat) (draws : List (List Nat))
    (url shortcode : String)
    (hurl : body.url = some url) (hne : url ≠ "") (hok : isURL url = true)
    (hval : validityRejected (body.validity.getD (.num (.fin 30))) = false)
    (hsc : body.shortcode = some shortcode) (hm : matchesCodePattern shortcode = false)
    (hkey : mapHas s.urlDatabase shortcode = false)
    (hfree : ∃ pool ∈ draws, mapHas s.urlDatabase (nanoid 6 pool) = false) :
    ∃ code s',
      generateShortCode s.urlDatabase draws = some code ∧ isNanoid6 code = true ∧
      mapHas s.urlDatabase code = false ∧
      createShortUrl isURL PORT body t1 t2 draws s
        = some (.created (shortLinkOf PORT code) (newRecord body code t1 t2).expiryTime, s') ∧
      (Response.created (shortLinkOf PORT code) (newRecord body code t1 t2).expiryTime).status
        = 201 ∧
      s'.urlDatabase = s.urlDatabase ++ [(code, newRecord body code t1 t2)] ∧
      (mapHas s'.urlDatabase shortcode = true ↔ shortcode = code) := by
  obtain ⟨code, hg⟩ := generateShortCode_of_free hfree
  obtain ⟨hnew, pool, _, hp⟩ := generateShortCode_some hg
  refine ⟨code, _, hg, by rw [hp]; exact nanoid_isNanoid6 pool, hnew,
    createShortUrl_generated t1 t2 hurl hne hok hval (Or.inr ⟨shortcode, hsc, hkey, hm⟩) hg,
    rfl, mapSet_of_not_has _ _ _ hnew, ?_⟩
  simp only [mapHas_mapSet, hkey, Bool.false_or, beq_iff_eq]
  exact eq_comm

theorem create_invalid_custom_code_falls_back_witness :
    (⟨some "https://example.com", none, some "a!"⟩ : CreateBody).url
      = some "https://example.com" ∧
    "https://example.com" ≠ "" ∧ sampleIsURL "https://example.com" = true ∧
    validityRejected
      ((⟨some "https://example.com", none, some "a!"⟩ : CreateBody).validity.getD
        (.num (.fin 30))) = false ∧
    (⟨some "https://example.com", none, some "a!"⟩ : CreateBody).shortcode = some "a!" ∧
    matchesCodePattern "a!" = false ∧
    mapHas storeAbc.urlDatabase "a!" = false ∧
    (∃ pool ∈ [[0, 1, 2, 3, 4, 5]], mapHas storeAbc.urlDatabase (nanoid 6 pool) = false) ∧
    ∃ code s',
      generateShortCode storeAbc.urlDatabase [[0, 1, 2, 3, 4, 5]] = some code ∧
      isNanoid6 code = true ∧
      mapHas storeAbc.urlDatabase code = false ∧
      createShortUrl sampleIsURL "5000" ⟨some "https://example.com", none, some "a!"⟩ 5 5
          [[0, 1, 2, 3, 4, 5]] storeAbc
        = some (.created (shortLinkOf "5000" code)
            (newRecord ⟨some "https://example.com", none, some "a!"⟩ code 5 5).expiryTime, s') ∧
      (Response.created (shortLinkOf "5000" code)
        (newRecord ⟨some "https://example.com", none, some "a!"⟩ code 5 5).expiryTime).status
        = 201 ∧
      s'.urlDatabase = storeAbc.urlDatabase ++
        [(code, newRecord ⟨some "https://example.com", none, some "a!"⟩ code 5 5)] ∧
      (mapHas s'.urlDatabase "a!" = true ↔ "a!" = code) :=
  ⟨rfl, by decide, by decide, by decide, rfl, by decide, by decide,
   ⟨[0, 1, 2, 3, 4, 5], by decide, by decide⟩,
   create_invalid_custom_code_falls_back sampleIsURL "5000" storeAbc
     ⟨some "https://example.com", none, some "a!"⟩ 5 5 [[0, 1, 2, 3, 4, 5]]
     "https://example.com" "a!" rfl (by decide) (by decide) (by decide) rfl (by decide)
     (by decide) ⟨[0, 1, 2, 3, 4, 5], by decide, by decide⟩⟩

theorem storeAbcUseand_created :
    createShortUrl sampleIsURL "5000" ⟨some "https://example.com", none, none⟩ 5 5
        [[0, 1, 2, 3, 4, 5]] storeAbc
      = some (.created "http://localhost:5000/useand" (some 1800005), storeAbcUseand) := by
  decide

theorem storeAbcUseand_reachable : Reachable sampleIsURL "5000" storeAbcUseand :=
  Reachable.create _ 5 5 [[0, 1, 2, 3, 4, 5]] storeAbc_reachable storeAbcUseand_created

theorem durationMs_natCast (v : Nat) : durationMs (.num (.fin (v : ℚ))) = v * 60000 := by
  simp [durationMs]

/-- C9 as stated fails when the clock advances between the two `moment()` calls of
lines 83 and 84: with `validity = 1`, readings `1700000000000` and `1700000000001` give a
record whose `expiryTime` is not `createdAt` plus one minute. -/
theorem expiry_two_clock_reads_counterexample :
    createShortUrl sampleIsURL "5000"
        ⟨some "https://example.com", some (.num (.fin 1)), some "abc"⟩
        1700000000000 1700000000001 [] Store.empty
      = some (.created "http://localhost:5000/abc" (some 1700000060001),
          ⟨[("abc", ⟨"https://example.com", "abc", 1700000000000, some 1700000060001,
              .num (.fin 1), 0⟩)],
           [("abc", [])]⟩) ∧
    (1700000060001 : Nat) ≠ 1700000000000 + 1 * 60000 := by
  decide

/-- C9, amended: a successful create with validity `v` minutes (the default 30 when the
field is omitted) stores a record whose `createdAt` is the clock reading of line 83 and
whose `expiryTime` is the clock reading of line 84 plus `v` minutes, `null` when that
instant is past the last valid `Date`; the answer carries the same `expiry`.  So
`expiryTime = createdAt + v` minutes when both readings are the same instant. -/
theorem create_expiry_time (isURL : String → Bool) (PORT : String) (s s' : Store)
    (body : CreateBody) (t1 t2 : Nat) (draws : List (List Nat)) (link : String)
    (expiry : Option Nat) (v : Nat)
    (hv : body.validity.getD (.num (.fin 30)) = .num (.fin (v : ℚ)))
    (h : createShortUrl isURL PORT body t1 t2 draws s = some (.created link expiry, s')) :
    ∃ code urlData,
      link = shortLinkOf PORT code ∧ mapGet s'.urlDatabase code = some urlData ∧
      urlData.createdAt = t1 ∧ urlData.expiryTime = expiry ∧
      urlData.validity = .num (.fin (v : ℚ)) ∧
      expiry = toISOString (t2 + v * 60000) ∧
      (t2 + v * 60000 ≤ maxTime → urlData.expiryTime = some (t2 + v * 60000)) ∧
      (t1 = t2 → t2 + v * 60000 ≤ maxTime →
        urlData.expiryTime = some (urlData.createdAt + v * 60000)) := by
  rcases createShortUrl_cases h with ⟨_, msg, hr⟩ | ⟨url, code, _, _, _, _, _, _, hr, hst⟩
  · cases hr
  · injection hr with hlink hexp
    have hE : expiry = toISOString (t2 + v * 60000) := by
      rw [hexp]; simp [newRecord, hv, durationMs_natCast]
    have hrec : (newRecord body code t1 t2).expiryTime = expiry := hexp.symm
    refine ⟨code, newRecord body code t1 t2, hlink, by rw [hst]; simp [mapGet_mapSet],
      rfl, hrec, by simp [newRecord, hv], hE, ?_, ?_⟩
    · intro hle
      rw [hrec, hE]; simp [toISOString, hle]
    · intro ht hle
      rw [hrec, hE]
      have : (newRecord body code t1 t2).createdAt = t2 := ht
      rw [this]; simp [toISOString, hle]

theorem create_expiry_time_witness :
    (⟨some "https://example.com", none, none⟩ : CreateBody).validity.getD (.num (.fin 30))
      = .num (.fin ((30 : Nat) : ℚ)) ∧
    createShortUrl sampleIsURL "5000" ⟨some "https://example.com", none, none⟩ 5 5
        [[0, 1, 2, 3, 4, 5]] storeAbc
      = some (.created "http://localhost:5000/useand" (some 1800005), storeAbcUseand) ∧
    ∃ code urlData,
      "http://localhost:5000/useand" = shortLinkOf "5000" code ∧
      mapGet storeAbcUseand.urlDatabase code = some urlData ∧
      urlData.createdAt = 5 ∧ urlData.expiryTime = some 1800005 ∧
      urlData.validity = .num (.fin ((30 : Nat) : ℚ)) ∧
      some 1800005 = toISOString (5 + 30 * 60000) ∧
      (5 + 30 * 60000 ≤ maxTime → urlData.expiryTime = some (5 + 30 * 60000)) ∧
      (5 = 5 → 5 + 30 * 60000 ≤ maxTime →
        urlData.expiryTime = some (urlData.createdAt + 30 * 60000)) :=
  ⟨by simp, by decide,
   create_expiry_time sampleIsURL "5000" storeAbc storeAbcUseand
     ⟨some "https://example.com", none, none⟩ 5 5 [[0, 1, 2, 3, 4, 5]]
     "http://localhost:5000/useand" (some 1800005) 30 (by simp) (by decide)⟩

/-- String fields: a create whose `url` is absent, empty or rejected by `isURL` answers 400
`Invalid URL format`, whatever `validity` and `shortcode` are, and returns the store
unchanged; and every record of a reachable store holds a non-empty URL that `isURL`
accepts. -/
theorem create_invalid_url (isURL : String → Bool) (PORT : String) (s : Store)
    (body : CreateBody) (t1 t2 : Nat) (draws : List (List Nat))
    (hbad : body.url = none ∨ body.url = some "" ∨
      ∃ url, body.url = some url ∧ isURL url = false)
    (s₀ : Store) (hs₀ : Reachable isURL PORT s₀) :
    createShortUrl isURL PORT body t1 t2 draws s
      = some (.badRequest "Invalid URL format", s) ∧
    (Response.badRequest "Invalid URL format").status = 400 ∧
    ∀ e ∈ s₀.urlDatabase, e.2.originalUrl ≠ "" ∧ isURL e.2.originalUrl = true := by
  refine ⟨?_, rfl, hs₀.urlsAccepted⟩
  rcases hbad with h | h | ⟨url, h, hrej⟩
  · simp [createShortUrl, h]
  · simp [createShortUrl, h]
  · simp [createShortUrl, h, hrej]

/-- C11: the statistics handler returns the store it received, so after any sequence of
further statistics requests (on any codes, with no redirect in between) a statistics
request on `code` gives the same answer, `totalClicks` and report included, as before. -/
theorem getStats_idempotent (s : Store) (code : String) (others : List String) :
    (getStats code s).2 = s ∧
    (getStats code s).2.urlDatabase = s.urlDatabase ∧
    (getStats code s).2.clickDatabase = s.clickDatabase ∧
    others.foldl (fun st c => (getStats c st).2) s = s ∧
    (getStats code (others.foldl (fun st c => (getStats c st).2) s)).1 = (getStats code s).1 ∧
    ∀ n : Nat, (getStats code (Nat.iterate (fun st => (getStats code st).2) n s)).1
      = (getStats code s).1 := by
  have hfold : ∀ (l : List String) (st : Store),
      l.foldl (fun st c => (getStats c st).2) st = st := by
    intro l
    induction l with
    | nil => intro st; rfl
    | cons c l ih => intro st; rw [List.foldl_cons, getStats_store]; exact ih st
  have hiter : ∀ (n : Nat) (st : Store),
      Nat.iterate (fun st => (getStats code st).2) n st = st := by
    intro n
    induction n with
    | zero => intro st; rfl
    | succ n ih => intro st; rw [Function.iterate_succ_apply, getStats_store]; exact ih st
  refine ⟨getStats_store code s, by rw [getStats_store], by rw [getStats_store],
    hfold others s, by rw [hfold], fun n => by rw [hiter]⟩

/-- Every record of a reachable store carries the code it is stored under. -/
theorem Reachable.shortCodeKey {isURL : String → Bool} {PORT : String} {s : Store}
    (hs : Reachable isURL PORT s) :
    ∀ e ∈ s.urlDatabase, e.2.shortCode = e.1 := by
  refine Reachable.store_induction (fun s => ∀ e ∈ s.urlDatabase, e.2.shortCode = e.1)
    ?_ ?_ ?_ s hs
  · intro e he; simp [Store.empty] at he
  · intro s body code t1 t2 _ ih _ _ _ _ e he
    rcases mem_mapSet he with h | h
    · exact ih e h
    · rw [h]; rfl
  · intro s code now req d clicks _ ih hd _ e he
    rcases mem_mapSet he with h | h
    · exact ih e h
    · rw [h]; exact ih (code, d) (mapGet_mem hd)

/-- In a reachable store every record has a click sequence, and its stored `clickCount`
is the length of that sequence. -/
theorem Reachable.clickCounts {isURL : String → Bool} {PORT : String} {s : Store}
    (hs : Reachable isURL PORT s) :
    ∀ k d, mapGet s.urlDatabase k = some d →
      ∃ clicks, mapGet s.clickDatabase k = some clicks ∧ d.clickCount = clicks.length := by
  refine Reachable.store_induction
    (fun s => ∀ k d, mapGet s.urlDatabase k = some d →
      ∃ clicks, mapGet s.clickDatabase k = some clicks ∧ d.clickCount = clicks.length)
    ?_ ?_ ?_ s hs
  · intro k d h; simp [Store.empty, mapGet] at h
  · intro s body code t1 t2 _ ih _ _ _ _ k d h
    simp only [mapGet_mapSet] at h ⊢
    by_cases hk : code = k
    · simp only [hk, if_true, Option.some.injEq] at h ⊢
      exact ⟨[], rfl, by rw [← h]; rfl⟩
    · simp only [hk, if_false] at h ⊢
      exact ih k d h
  · intro s code now req d₀ clicks _ ih _ _ k d h
    simp only [mapGet_mapSet] at h ⊢
    by_cases hk : code = k
    · simp only [hk, if_true, Option.some.injEq] at h ⊢
      exact ⟨_, rfl, by rw [← h]; simp⟩
    · simp only [hk, if_false] at h ⊢
      exact ih k d h

/-- In a reachable store the two maps list the same codes in the same order. -/
theorem Reachable.sameKeyList {isURL : String → Bool} {PORT : String} {s : Store}
    (hs : Reachable isURL PORT s) :
    s.clickDatabase.map Prod.fst = s.urlDatabase.map Prod.fst := by
  refine Reachable.store_induction
    (fun s => s.clickDatabase.map Prod.fst = s.urlDatabase.map Prod.fst) ?_ ?_ ?_ s hs
  · rfl
  · intro s body code t1 t2 hs ih _ _ _ _
    simp only [keys_mapSet, hs.sameKeys, ih]
  · intro s code now req d clicks hs ih _ _
    simp only [keys_mapSet, hs.sameKeys, ih]

theorem storeAbcClicked_resolved :
    resolve "abc" 10 requestEmptyReferer storeAbc
      = (.redirect "https://example.com", storeAbcClicked) := by
  decide

theorem storeAbcClicked_reachable : Reachable sampleIsURL "5000" storeAbcClicked := by
  have h := Reachable.resolve "abc" 10 requestEmptyReferer storeAbc_reachable
  rwa [storeAbcClicked_resolved] at h

/-- C12 as stated fails for an empty referrer: a redirect of `abc` for a request whose
`Referer` header is empty records the referrer `""` (present, not absent), and the
statistics report shows it as `Direct` instead of unchanged. -/
theorem stats_empty_referrer_counterexample :
    resolve "abc" 10 requestEmptyReferer storeAbc
      = (.redirect "https://example.com", storeAbcClicked) ∧
    mapGet storeAbcClicked.clickDatabase "abc"
      = some [⟨10, some "", none, none, "New York, US"⟩] ∧
    getStats "abc" storeAbcClicked
      = (.stats ⟨"abc", "https://example.com", 0, some 60000, 1,
          [⟨10, "Direct", "New York, US", none⟩]⟩, storeAbcClicked) := by
  decide

/-- C12, amended: on a reachable store the statistics handler answers a stored code,
whatever the clock, with the record's `shortCode`, `originalUrl`, `createdAt` and
`expiryTime`, with `totalClicks` the length of the code's click sequence, and with one
reported click per recorded event in the same order, carrying its timestamp, location
and user agent; the referrer is reported as `Direct` when the recorded one is absent or
the empty string, and unchanged otherwise. -/
theorem getStats_reports_record (isURL : String → Bool) (PORT : String) (s : Store)
    (code : String) (urlData : UrlData) (hs : Reachable isURL PORT s)
    (hget : mapGet s.urlDatabase code = some urlData) :
    ∃ clicks report,
      mapGet s.clickDatabase code = some clicks ∧
      getStats code s = (.stats report, s) ∧ (getStats code s).1.status = 200 ∧
      report.shortCode = urlData.shortCode ∧ report.shortCode = code ∧
      report.originalUrl = urlData.originalUrl ∧ report.createdAt = urlData.createdAt ∧
      report.expiryTime = urlData.expiryTime ∧
      report.totalClicks = clicks.length ∧ report.clicks.length = clicks.length ∧
      ∀ (i : Nat) (click : ClickData), clicks[i]? = some click →
        ∃ shown, report.clicks[i]? = some shown ∧
          shown.timestamp = click.timestamp ∧ shown.location = click.location ∧
          shown.userAgent = click.userAgent ∧
          ((click.referrer = none ∨ click.referrer = some "") → shown.referrer = "Direct") ∧
          (∀ r, click.referrer = some r → r ≠ "" → shown.referrer = r) := by
  obtain ⟨clicks, hc, _⟩ := hs.clickCounts code urlData hget
  have hkey : urlData.shortCode = code := hs.shortCodeKey (code, urlData) (mapGet_mem hget)
  have hst := getStats_found hget
  rw [hc] at hst
  refine ⟨clicks, _, hc, hst, by rw [hst]; rfl, hkey.symm, rfl, rfl, rfl, rfl, rfl,
    by simp, ?_⟩
  intro i click hi
  refine ⟨⟨click.timestamp, (jsOr click.referrer (some "Direct")).getD "Direct",
    click.location, click.userAgent⟩, by simp [List.getElem?_map, hi], rfl, rfl, rfl, ?_, ?_⟩
  · rintro (h | h) <;> simp [h, jsOr]
  · intro r h hr
    simp [h, jsOr, hr]

theorem getStats_reports_record_witness :
    Reachable sampleIsURL "5000" storeAbcClicked ∧
    mapGet storeAbcClicked.urlDatabase "abc"
      = some ⟨"https://example.com", "abc", 0, some 60000, .num (.fin 1), 1⟩ ∧
    ∃ clicks report,
      mapGet storeAbcClicked.clickDatabase "abc" = some clicks ∧
      getStats "abc" storeAbcClicked = (.stats report, storeAbcClicked) ∧
      (getStats "abc" storeAbcClicked).1.status = 200 ∧
      report.shortCode
        = (⟨"https://example.com", "abc", 0, some 60000, .num (.fin 1), 1⟩ : UrlData).shortCode ∧
      report.shortCode = "abc" ∧
      report.originalUrl
        = (⟨"https://example.com", "abc", 0, some 60000, .num (.fin 1), 1⟩ : UrlData).originalUrl ∧
      report.createdAt
        = (⟨"https://example.com", "abc", 0, some 60000, .num (.fin 1), 1⟩ : UrlData).createdAt ∧
      report.expiryTime
        = (⟨"https://example.com", "abc", 0, some 60000, .num (.fin 1), 1⟩ : UrlData).expiryTime ∧
      report.totalClicks = clicks.length ∧ report.clicks.length = clicks.length ∧
      ∀ (i : Nat) (click : ClickData), clicks[i]? = some click →
        ∃ shown, report.clicks[i]? = some shown ∧
          shown.timestamp = click.timestamp ∧ shown.location = click.location ∧
          shown.userAgent = click.userAgent ∧
          ((click.referrer = none ∨ click.referrer = some "") → shown.referrer = "Direct") ∧
          (∀ r, click.referrer = some r → r ≠ "" → shown.referrer = r) :=
  ⟨storeAbcClicked_reachable, by decide,
   getStats_reports_record sampleIsURL "5000" storeAbcClicked "abc"
     ⟨"https://example.com", "abc", 0, some 60000, .num (.fin 1), 1⟩
     storeAbcClicked_reachable (by decide)⟩

theorem mapGet_of_mem_nodup {α : Type} {m : List (String × α)} {e : String × α}
    (hnd : (m.map Prod.fst).Nodup) (he : e ∈ m) : mapGet m e.1 = some e.2 := by
  induction m with
  | nil => simp at he
  | cons e₀ m ih =>
    obtain ⟨k₀, v₀⟩ := e₀
    simp only [List.map_cons, List.nodup_cons] at hnd
    rcases List.mem_cons.mp he with h | h
    · subst h; simp [mapGet]
    · have hne : k₀ ≠ e.1 := by
        rintro rfl
        exact hnd.1 (List.mem_map_of_mem Prod.fst h)
      simp [mapGet, hne, ih hnd.2 h]

theorem resolve_redirect_inv {s : Store} {code : String} {now : Nat} {req : RequestContext}
    {url : String} (h : (resolve code now req s).1 = .redirect url) :
    ∃ d clicks, mapGet s.urlDatabase code = some d ∧
      mapGet s.clickDatabase code = some clicks ∧
      isAfter now d.expiryTime = false ∧ url = d.originalUrl ∧
      resolve code now req s =
        (.redirect d.originalUrl,
         ⟨mapSet s.urlDatabase code { d with clickCount := clicks.length + 1 },
          mapSet s.clickDatabase code (clicks ++ [clickOf now req])⟩) := by
  cases hget : mapGet s.urlDatabase code with
  | none =>
    rw [resolve_not_found now req ((mapGet_eq_none_iff _ _).mp hget)] at h
    cases h
  | some d =>
    cases hexp : isAfter now d.expiryTime with
    | true => rw [resolve_expired req hget hexp] at h; cases h
    | false =>
      cases hc : mapGet s.clickDatabase code with
      | none => rw [resolve_no_clicks req hget hexp hc] at h; cases h
      | some clicks =>
        have hres := resolve_active req hget hexp hc
        rw [hres] at h
        injection h with h
        exact ⟨d, clicks, rfl, rfl, hexp, h.symm, hres⟩

/-- C13: in a reachable store the two maps hold the same codes (in the same order), and
every record's stored `clickCount` is the length of the click sequence kept under its
code; the record written by a successful create has `clickCount = 0` and an empty click
sequence. -/
theorem maps_in_sync (isURL : String → Bool) (PORT : String) (s₀ : Store)
    (hs₀ : Reachable isURL PORT s₀) (s s' : Store) (body : CreateBody) (t1 t2 : Nat)
    (draws : List (List Nat)) (link : String) (expiry : Option Nat)
    (h : createShortUrl isURL PORT body t1 t2 draws s = some (.created link expiry, s')) :
    (∀ k, mapHas s₀.clickDatabase k = mapHas s₀.urlDatabase k) ∧
    s₀.clickDatabase.map Prod.fst = s₀.urlDatabase.map Prod.fst ∧
    (∀ e ∈ s₀.urlDatabase, ∃ clicks,
      mapGet s₀.clickDatabase e.1 = some clicks ∧ e.2.clickCount = clicks.length) ∧
    ∃ code d, link = shortLinkOf PORT code ∧ mapGet s'.urlDatabase code = some d ∧
      d.clickCount = 0 ∧ mapGet s'.clickDatabase code = some [] := by
  refine ⟨hs₀.sameKeys, hs₀.sameKeyList, ?_, ?_⟩
  · intro e he
    exact hs₀.clickCounts e.1 e.2 (mapGet_of_mem_nodup hs₀.nodupKeys he)
  · rcases createShortUrl_cases h with ⟨_, msg, hr⟩ | ⟨url, code, _, _, _, _, _, _, hr, hst⟩
    · cases hr
    · injection hr with hlink _
      exact ⟨code, newRecord body code t1 t2, hlink, by rw [hst]; simp [mapGet_mapSet], rfl,
        by rw [hst]; simp [mapGet_mapSet]⟩

theorem maps_in_sync_witness :
    Reachable sampleIsURL "5000" storeAbcClicked ∧
    createShortUrl sampleIsURL "5000" ⟨some "https://example.com", none, none⟩ 5 5
        [[0, 1, 2, 3, 4, 5]] storeAbc
      = some (.created "http://localhost:5000/useand" (some 1800005), storeAbcUseand) ∧
    (∀ k, mapHas storeAbcClicked.clickDatabase k = mapHas storeAbcClicked.urlDatabase k) ∧
    storeAbcClicked.clickDatabase.map Prod.fst = storeAbcClicked.urlDatabase.map Prod.fst ∧
    (∀ e ∈ storeAbcClicked.urlDatabase, ∃ clicks,
      mapGet storeAbcClicked.clickDatabase e.1 = some clicks ∧
      e.2.clickCount = clicks.length) ∧
    ∃ code d, "http://localhost:5000/useand" = shortLinkOf "5000" code ∧
      mapGet storeAbcUseand.urlDatabase code = some d ∧
      d.clickCount = 0 ∧ mapGet storeAbcUseand.clickDatabase code = some [] :=
  ⟨storeAbcClicked_reachable, storeAbcUseand_created,
   maps_in_sync sampleIsURL "5000" storeAbcClicked storeAbcClicked_reachable storeAbc
     storeAbcUseand ⟨some "https://example.com", none, none⟩ 5 5 [[0, 1, 2, 3, 4, 5]]
     "http://localhost:5000/useand" (some 1800005) storeAbcUseand_created⟩

/-- C14: a redirect that succeeds (302) on `code` replaces the code's click sequence by
the old sequence followed by one new event, whose timestamp is the clock reading used
for the expiry test and whose other fields come from the request (referrer, user agent,
source address) and from the location table; the events recorded before stay at their
positions, no key is added to the click map, and the click sequence of every other code
is read back unchanged. -/
theorem resolve_appends_click (s : Store) (code : String) (now : Nat)
    (req : RequestContext) (url : String)
    (h : (resolve code now req s).1 = .redirect url) :
    ∃ clicks event,
      mapGet s.clickDatabase code = some clicks ∧
      mapGet (resolve code now req s).2.clickDatabase code = some (clicks ++ [event]) ∧
      event.timestamp = now ∧
      event.referrer = jsOr (jsOr req.referrer req.referer) (jsOr req.referrer req.referer) ∧
      event.userAgent = req.userAgent ∧ event.ip = jsOr req.ip req.remoteAddress ∧
      event.location = getGeographicalLocation req.locationDraw ∧
      event.location ∈ locations ∧
      (∀ (i : Nat) (click : ClickData), clicks[i]? = some click →
        (clicks ++ [event])[i]? = some click) ∧
      (resolve code now req s).2.clickDatabase.map Prod.fst
        = s.clickDatabase.map Prod.fst ∧
      ∀ k, k ≠ code →
        mapGet (resolve code now req s).2.clickDatabase k = mapGet s.clickDatabase k := by
  obtain ⟨d, clicks, _, hc, _, _, hres⟩ := resolve_redirect_inv h
  have hhas : mapHas s.clickDatabase code = true := (mapHas_iff_get _ _).mpr ⟨clicks, hc⟩
  refine ⟨clicks, clickOf now req, hc, by rw [hres]; simp [mapGet_mapSet], rfl, rfl, rfl,
    rfl, rfl, ?_, ?_, ?_, ?_⟩
  · have : ∀ i : Fin 5, getGeographicalLocation i ∈ locations := by decide
    exact this req.locationDraw
  · intro i click hi
    have hlt : i < clicks.length := by
      rcases Nat.lt_or_ge i clicks.length with hlt | hge
      · exact hlt
      · rw [List.getElem?_eq_none hge] at hi; cases hi
    rw [List.getElem?_append_left hlt]; exact hi
  · rw [hres]; simp only [keys_mapSet, hhas, if_true]
  · intro k hk
    have hne : ¬ code = k := fun h => hk h.symm
    rw [hres]; simp only [mapGet_mapSet, hne, if_false]

theorem resolve_appends_click_witness :
    (resolve "abc" 20 sampleRequest storeAbcClicked).1 = .redirect "https://example.com" ∧
    ∃ clicks event,
      mapGet storeAbcClicked.clickDatabase "abc" = some clicks ∧
      mapGet (resolve "abc" 20 sampleRequest storeAbcClicked).2.clickDatabase "abc"
        = some (clicks ++ [event]) ∧
      event.timestamp = 20 ∧
      event.referrer = jsOr (jsOr sampleRequest.referrer sampleRequest.referer)
        (jsOr sampleRequest.referrer sampleRequest.referer) ∧
      event.userAgent = sampleRequest.userAgent ∧
      event.ip = jsOr sampleRequest.ip sampleRequest.remoteAddress ∧
      event.location = getGeographicalLocation sampleRequest.locationDraw ∧
      event.location ∈ locations ∧
      (∀ (i : Nat) (click : ClickData), clicks[i]? = some click →
        (clicks ++ [event])[i]? = some click) ∧
      (resolve "abc" 20 sampleRequest storeAbcClicked).2.clickDatabase.map Prod.fst
        = storeAbcClicked.clickDatabase.map Prod.fst ∧
      ∀ k, k ≠ "abc" →
        mapGet (resolve "abc" 20 sampleRequest storeAbcClicked).2.clickDatabase k
          = mapGet storeAbcClicked.clickDatabase k :=
  ⟨by decide,
   resolve_appends_click storeAbcClicked "abc" 20 sampleRequest "https://example.com"
     (by decide)⟩

theorem Reachable.handle {isURL : String → Bool} {PORT : String} {s s' : Store}
    {request : Request} {r : Response} (hs : Reachable isURL PORT s)
    (h : handle isURL PORT request s = some (r, s')) : Reachable isURL PORT s' := by
  cases request with
  | create body t1 t2 draws => exact Reachable.create body t1 t2 draws hs h
  | resolve shortcode now req =>
    simp only [UrlShortener.handle, Option.some.injEq] at h
    have := Reachable.resolve shortcode now req hs
    rwa [h] at this
  | getStats shortcode =>
    simp only [UrlShortener.handle, Option.some.injEq] at h
    have := Reachable.getStats shortcode hs
    rwa [h] at this
  | listAll =>
    simp only [UrlShortener.handle, Option.some.injEq] at h
    have := Reachable.listAll hs
    rwa [h] at this

/-- One request at a time, string fields: the `shortLink` of a successful create is
`http://localhost:PORT/` followed by
the code the record is stored under; that code is the supplied custom code when one is
supplied and matches the pattern (it was then not a key), and the generator's result
otherwise; a statistics request on that code right after the create reports the
submitted URL. -/
theorem create_short_link (isURL : String → Bool) (PORT : String) (s s' : Store)
    (body : CreateBody) (t1 t2 : Nat) (draws : List (List Nat)) (link : String)
    (expiry : Option Nat)
    (h : createShortUrl isURL PORT body t1 t2 draws s = some (.created link expiry, s')) :
    ∃ code url report,
      link = "http://localhost:" ++ PORT ++ "/" ++ code ∧ body.url = some url ∧
      mapHas s.urlDatabase code = false ∧ mapHas s'.urlDatabase code = true ∧
      (∀ c, body.shortcode = some c → matchesCodePattern c = true → code = c) ∧
      ((∀ c, body.shortcode = some c → matchesCodePattern c = false) →
        generateShortCode s.urlDatabase draws = some code) ∧
      getStats code s' = (.stats report, s') ∧
      report.shortCode = code ∧ report.originalUrl = url := by
  rcases createShortUrl_cases h with ⟨_, msg, hr⟩ |
    ⟨url, code, hurl, hne, hok, hval, hfree, hshape, hr, hst⟩
  · cases hr
  · injection hr with hlink _
    have hget : mapGet s'.urlDatabase code = some (newRecord body code t1 t2) := by
      rw [hst]; simp [mapGet_mapSet]
    refine ⟨code, url, _, hlink, hurl, hfree, (mapHas_iff_get _ _).mpr ⟨_, hget⟩, ?_, ?_,
      getStats_found hget, rfl, by simp [newRecord, hurl]⟩
    · intro c hc hm
      have hcne : c ≠ "" := matchesCodePattern_ne_empty hm
      cases hkey : mapHas s.urlDatabase c with
      | true =>
        rw [createShortUrl_taken t1 t2 draws hurl hne hok hval hc hcne hkey] at h
        injection h with h; injection h with h; cases h
      | false =>
        rw [createShortUrl_custom t1 t2 draws hurl hne hok hval hc hkey hm] at h
        injection h with h
        injection h with _ h2
        have hin : mapHas s'.urlDatabase c = true := by
          rw [← h2]; simp [mapHas_mapSet]
        rw [hst] at hin
        simp only [mapHas_mapSet, hkey, Bool.false_or, beq_iff_eq] at hin
        exact hin
    · intro hall
      rcases hshape with ⟨hsc, _, hm⟩ | hg
      · rw [hall code hsc] at hm; cases hm
      · exact hg

/-- One request at a time, string fields: whatever the request (create, redirect,
statistics, listing) and its outcome,
a record stored before it is stored after it under the same code with the same
`originalUrl`, `shortCode`, `createdAt`, `expiryTime` and `validity`, and the listed
codes of the store only get longer at the end; the record's `clickCount` or click
sequence differs afterwards only if the request was a redirect of that very code that
answered 302. -/
theorem records_persist (isURL : String → Bool) (PORT : String) (request : Request)
    (s s' : Store) (r : Response) (k : String) (d : UrlData)
    (h : handle isURL PORT request s = some (r, s'))
    (hget : mapGet s.urlDatabase k = some d) :
    ∃ d', mapGet s'.urlDatabase k = some d' ∧
      d'.originalUrl = d.originalUrl ∧ d'.shortCode = d.shortCode ∧
      d'.createdAt = d.createdAt ∧ d'.expiryTime = d.expiryTime ∧
      d'.validity = d.validity ∧
      (∃ added, s'.urlDatabase.map Prod.fst = s.urlDatabase.map Prod.fst ++ added) ∧
      ((d'.clickCount ≠ d.clickCount ∨
          mapGet s'.clickDatabase k ≠ mapGet s.clickDatabase k) →
        ∃ now req, request = .resolve k now req ∧ r = .redirect d.originalUrl) := by
  have same : ∀ {r' : Response}, (r', s) = (r, s') →
      ∃ d', mapGet s'.urlDatabase k = some d' ∧
        d'.originalUrl = d.originalUrl ∧ d'.shortCode = d.shortCode ∧
        d'.createdAt = d.createdAt ∧ d'.expiryTime = d.expiryTime ∧
        d'.validity = d.validity ∧
        (∃ added, s'.urlDatabase.map Prod.fst = s.urlDatabase.map Prod.fst ++ added) ∧
        ((d'.clickCount ≠ d.clickCount ∨
            mapGet s'.clickDatabase k ≠ mapGet s.clickDatabase k) →
          ∃ now req, request = .resolve k now req ∧ r = .redirect d.originalUrl) := by
    intro r' heq
    injection heq with _ hs
    subst hs
    exact ⟨d, hget, rfl, rfl, rfl, rfl, rfl, ⟨[], by simp⟩, fun hne => by
      rcases hne with hne | hne <;> exact absurd rfl hne⟩
  have hk : mapHas s.urlDatabase k = true := (mapHas_iff_get _ _).mpr ⟨d, hget⟩
  cases request with
  | create body t1 t2 draws =>
    rcases createShortUrl_cases h with ⟨hs, _⟩ | ⟨url, code, _, _, _, _, hfree, _, _, hst⟩
    · exact same (by rw [hs])
    · have hne : ¬ code = k := by
        rintro rfl
        rw [hfree] at hk; exact Bool.noConfusion hk
      refine ⟨d, by rw [hst]; simp [mapGet_mapSet, hne, hget], rfl, rfl, rfl, rfl, rfl,
        ⟨[code], by rw [hst]; simp [keys_mapSet, hfree]⟩, ?_⟩
      rintro (hc | hc)
      · exact absurd rfl hc
      · exfalso; apply hc; rw [hst]; simp [mapGet_mapSet, hne]
  | resolve shortcode now req =>
    simp only [UrlShortener.handle, Option.some.injEq] at h
    rcases resolve_store_cases shortcode now req s with hs | ⟨d₀, clicks, hd₀, hc₀, _, hres⟩
    · have hs' : s' = s := by rw [← hs, h]
      exact @same r (by rw [hs'])
    · rw [hres] at h
      injection h with hr hst
      have hhas : mapHas s.urlDatabase shortcode = true := (mapHas_iff_get _ _).mpr ⟨d₀, hd₀⟩
      have hkeys : ∃ added,
          s'.urlDatabase.map Prod.fst = s.urlDatabase.map Prod.fst ++ added :=
        ⟨[], by rw [← hst]; simp [keys_mapSet, hhas]⟩
      by_cases hsk : shortcode = k
      · subst hsk
        rw [hget] at hd₀
        injection hd₀ with hd₀
        subst hd₀
        exact ⟨{ d with clickCount := clicks.length + 1 },
          by rw [← hst]; simp [mapGet_mapSet], rfl, rfl, rfl, rfl, rfl, hkeys,
          fun _ => ⟨now, req, rfl, hr.symm⟩⟩
      · refine ⟨d, by rw [← hst]; simp [mapGet_mapSet, hsk, hget], rfl, rfl, rfl, rfl, rfl,
          hkeys, ?_⟩
        rintro (hc | hc)
        · exact absurd rfl hc
        · exfalso; apply hc; rw [← hst]; simp [mapGet_mapSet, hsk]
  | getStats shortcode =>
    simp only [UrlShortener.handle, Option.some.injEq] at h
    have : ((getStats shortcode s).1, s) = (r, s') := by
      rw [← h]; exact Prod.ext rfl (getStats_store shortcode s).symm
    exact same this
  | listAll =>
    simp only [UrlShortener.handle, Option.some.injEq] at h
    exact same h

/-- C17: on a reachable store the listing handler answers 200 with one entry per stored
record, in the order of the record map, and returns the store unchanged; each entry
carries the record's `shortCode` (the code it is stored under), `originalUrl`,
`createdAt`, `expiryTime` and `validity`, the link `http://localhost:PORT/` followed by
that code, and as `clickCount` the length of the code's click sequence. -/
theorem listAll_entries (isURL : String → Bool) (PORT : String) (s : Store)
    (hs : Reachable isURL PORT s) :
    ∃ entries,
      listAll PORT s = (.urls entries, s) ∧ (listAll PORT s).1.status = 200 ∧
      (listAll PORT s).2.urlDatabase = s.urlDatabase ∧
      (listAll PORT s).2.clickDatabase = s.clickDatabase ∧
      entries.length = s.urlDatabase.length ∧
      ∀ (i : Nat) (e : String × UrlData), s.urlDatabase[i]? = some e →
        ∃ entry clicks,
          entries[i]? = some entry ∧ mapGet s.clickDatabase e.1 = some clicks ∧
          entry.shortCode = e.1 ∧ entry.shortCode = e.2.shortCode ∧
          entry.originalUrl = e.2.originalUrl ∧ entry.createdAt = e.2.createdAt ∧
          entry.expiryTime = e.2.expiryTime ∧ entry.validity = e.2.validity ∧
          entry.shortLink = "http://localhost:" ++ PORT ++ "/" ++ entry.shortCode ∧
          entry.clickCount = clicks.length := by
  refine ⟨_, rfl, rfl, rfl, rfl, by simp, ?_⟩
  intro i e hi
  have he : e ∈ s.urlDatabase := List.getElem?_mem hi
  have hkey : e.2.shortCode = e.1 := hs.shortCodeKey e he
  obtain ⟨clicks, hc, _⟩ := hs.clickCounts e.1 e.2 (mapGet_of_mem_nodup hs.nodupKeys he)
  refine ⟨⟨e.2.shortCode, e.2.originalUrl, e.2.createdAt, e.2.expiryTime, e.2.validity,
      shortLinkOf PORT e.1, ((mapGet s.clickDatabase e.1).getD []).length⟩, clicks,
    by simp [List.getElem?_map, hi], hc, hkey, rfl, rfl, rfl, rfl, rfl, ?_, by simp [hc]⟩
  simp [shortLinkOf, hkey]

theorem listAll_entries_witness :
    Reachable sampleIsURL "5000" storeAbcUseand ∧
    ∃ entries,
      listAll "5000" storeAbcUseand = (.urls entries, storeAbcUseand) ∧
      (listAll "5000" storeAbcUseand).1.status = 200 ∧
      (listAll "5000" storeAbcUseand).2.urlDatabase = storeAbcUseand.urlDatabase ∧
      (listAll "5000" storeAbcUseand).2.clickDatabase = storeAbcUseand.clickDatabase ∧
      entries.length = storeAbcUseand.urlDatabase.length ∧
      ∀ (i : Nat) (e : String × UrlData), storeAbcUseand.urlDatabase[i]? = some e →
        ∃ entry clicks,
          entries[i]? = some entry ∧ mapGet storeAbcUseand.clickDatabase e.1 = some clicks ∧
          entry.shortCode = e.1 ∧ entry.shortCode = e.2.shortCode ∧
          entry.originalUrl = e.2.originalUrl ∧ entry.createdAt = e.2.createdAt ∧
          entry.expiryTime = e.2.expiryTime ∧ entry.validity = e.2.validity ∧
          entry.shortLink = "http://localhost:" ++ "5000" ++ "/" ++ entry.shortCode ∧
          entry.clickCount = clicks.length :=
  ⟨storeAbcUseand_reachable,
   listAll_entries sampleIsURL "5000" storeAbcUseand storeAbcUseand_reachable⟩

theorem nanoid_length (size : Nat) (pool : List Nat) : (nanoid size pool).length = size := by
  simp [nanoid, String.length]

/-- C18: when some draw of the random source is not a key, the generator returns the
first such draw: every earlier draw collided with a key, the result is not a key and has
exactly 6 characters of the `nanoid` alphabet.  The generator only reads the record map:
its sole result is the code.  Whatever it returns is a 6-character string that is not a
key. -/
theorem generateShortCode_first_free (urlDatabase : List (String × UrlData))
    (draws : List (List Nat))
    (hfree : ∃ pool ∈ draws, mapHas urlDatabase (nanoid 6 pool) = false) :
    (∃ collided pool rest,
      draws = collided ++ pool :: rest ∧
      (∀ p ∈ collided, mapHas urlDatabase (nanoid 6 p) = true) ∧
      mapHas urlDatabase (nanoid 6 pool) = false ∧
      generateShortCode urlDatabase draws = some (nanoid 6 pool) ∧
      (nanoid 6 pool).length = 6 ∧ isNanoid6 (nanoid 6 pool) = true) ∧
    ∀ code, generateShortCode urlDatabase draws = some code →
      code.length = 6 ∧ mapHas urlDatabase code = false := by
  constructor
  · induction draws with
    | nil => obtain ⟨_, hp, _⟩ := hfree; simp at hp
    | cons pool rest ih =>
      cases hhas : mapHas urlDatabase (nanoid 6 pool) with
      | false =>
        exact ⟨[], pool, rest, rfl, by simp, hhas, by simp [generateShortCode, hhas],
          nanoid_length 6 pool, nanoid_isNanoid6 pool⟩
      | true =>
        have hfree' : ∃ p ∈ rest, mapHas urlDatabase (nanoid 6 p) = false := by
          obtain ⟨p, hp, hf⟩ := hfree
          rcases List.mem_cons.mp hp with rfl | hp
          · rw [hf] at hhas; exact Bool.noConfusion hhas
          · exact ⟨p, hp, hf⟩
        obtain ⟨collided, p, rest', hd, hcol, hf, hg, hlen, h6⟩ := ih hfree'
        refine ⟨pool :: collided, p, rest', by rw [hd]; rfl, ?_, hf,
          by simp [generateShortCode, hhas, hg], hlen, h6⟩
        intro q hq
        rcases List.mem_cons.mp hq with rfl | hq
        · exact hhas
        · exact hcol q hq
  · intro code hg
    obtain ⟨hnew, pool, _, hp⟩ := generateShortCode_some hg
    exact ⟨by rw [hp]; exact nanoid_length 6 pool, hnew⟩

theorem generateShortCode_first_free_witness :
    (∃ pool ∈ [[8, 8, 8, 8, 8, 8], [0, 1, 2, 3, 4, 5], [9]],
      mapHas storeDashes.urlDatabase (nanoid 6 pool) = false) ∧
    (∃ collided pool rest,
      [[8, 8, 8, 8, 8, 8], [0, 1, 2, 3, 4, 5], [9]] = collided ++ pool :: rest ∧
      (∀ p ∈ collided, mapHas storeDashes.urlDatabase (nanoid 6 p) = true) ∧
      mapHas storeDashes.urlDatabase (nanoid 6 pool) = false ∧
      generateShortCode storeDashes.urlDatabase [[8, 8, 8, 8, 8, 8], [0, 1, 2, 3, 4, 5], [9]]
        = some (nanoid 6 pool) ∧
      (nanoid 6 pool).length = 6 ∧ isNanoid6 (nanoid 6 pool) = true) ∧
    ∀ code,
      generateShortCode storeDashes.urlDatabase [[8, 8, 8, 8, 8, 8], [0, 1, 2, 3, 4, 5], [9]]
        = some code →
      code.length = 6 ∧ mapHas storeDashes.urlDatabase code = false :=
  ⟨⟨[0, 1, 2, 3, 4, 5], by decide, by decide⟩,
   generateShortCode_first_free storeDashes.urlDatabase
     [[8, 8, 8, 8, 8, 8], [0, 1, 2, 3, 4, 5], [9]] ⟨[0, 1, 2, 3, 4, 5], by decide, by decide⟩⟩

/-- C19: in a reachable store every code of the record map has a click sequence in the
click map, so the `clicks.push` of the redirect handler is defined and the handler never
ends in its `catch` branch: no redirect request is answered 500. -/
theorem resolve_never_internal_error (isURL : String → Bool) (PORT : String) (s : Store)
    (hs : Reachable isURL PORT s) (code : String) (now : Nat) (req : RequestContext) :
    (mapHas s.urlDatabase code = true →
      ∃ clicks, mapGet s.clickDatabase code = some clicks) ∧
    (resolve code now req s).1.status ≠ 500 ∧
    ∀ msg, (resolve code now req s).1 ≠ .internalError msg := by
  have hclicks : mapHas s.urlDatabase code = true →
      ∃ clicks, mapGet s.clickDatabase code = some clicks := by
    intro hk
    exact (mapHas_iff_get _ _).mp (by rw [hs.sameKeys, hk])
  refine ⟨hclicks, ?_⟩
  cases hget : mapGet s.urlDatabase code with
  | none =>
    rw [resolve_not_found now req ((mapGet_eq_none_iff _ _).mp hget)]
    exact ⟨by simp [Response.status], fun msg h => by cases h⟩
  | some d =>
    cases hexp : isAfter now d.expiryTime with
    | true =>
      rw [resolve_expired req hget hexp]
      exact ⟨by simp [Response.status], fun msg h => by cases h⟩
    | false =>
      obtain ⟨clicks, hc⟩ := hclicks ((mapHas_iff_get _ _).mpr ⟨d, hget⟩)
      rw [resolve_active req hget hexp hc]
      exact ⟨by simp [Response.status], fun msg h => by cases h⟩

theorem resolve_never_internal_error_witness :
    Reachable sampleIsURL "5000" storeAbcClicked ∧
    (mapHas storeAbcClicked.urlDatabase "abc" = true →
      ∃ clicks, mapGet storeAbcClicked.clickDatabase "abc" = some clicks) ∧
    (resolve "abc" 20 sampleRequest storeAbcClicked).1.status ≠ 500 ∧
    ∀ msg, (resolve "abc" 20 sampleRequest storeAbcClicked).1 ≠ .internalError msg :=
  ⟨storeAbcClicked_reachable,
   resolve_never_internal_error sampleIsURL "5000" storeAbcClicked storeAbcClicked_reachable
     "abc" 20 sampleRequest⟩

/-- C1, the code on two overlapping requests: two `POST /shorturls` with the custom code
`abc` both pass the key test of line 66 on the empty store and wait in `await Log` of
line 77; the first then writes and answers 201; the second writes too, although `abc`
is a key by then, answers 201 with the same link, and its record replaces the first
one.  The same link is also issued twice, one request after the other, for the string
`"123"` and then the number `123` as `shortcode`. -/
theorem overlapping_creates_issue_same_code :
    createCheck sampleIsURLWire (some bodyAbcFirst) WireStore.empty
      = .suspended (.keep "https://example.com" (.num (.fin 1)) (.str "abc")) ∧
    createCheck sampleIsURLWire (some bodyAbcSecond) WireStore.empty
      = .suspended (.keep "https://example.org" (.num (.fin 5)) (.str "abc")) ∧
    createWrite "5000" (.keep "https://example.com" (.num (.fin 1)) (.str "abc")) 0 0 []
        WireStore.empty
      = some (.created "http://localhost:5000/abc" (some 60000), wireStoreFirst) ∧
    wireHas wireStoreFirst.urlDatabase (.str "abc") = true ∧
    createWrite "5000" (.keep "https://example.org" (.num (.fin 5)) (.str "abc")) 20 20 []
        wireStoreFirst
      = some (.created "http://localhost:5000/abc" (some 300020), wireStoreSecond) ∧
    wireGet wireStoreFirst.urlDatabase (.str "abc")
      = some ⟨"https://example.com", .str "abc", 0, some 60000, .num (.fin 1), 0⟩ ∧
    wireGet wireStoreSecond.urlDatabase (.str "abc")
      = some ⟨"https://example.org", .str "abc", 20, some 300020, .num (.fin 5), 0⟩ ∧
    wireStoreSecond.urlDatabase.length = 1 ∧
    createOnWire sampleIsURLWire "5000"
        (some ⟨some (.str "https://example.com"), none, some (.str "123")⟩) 0 0 []
        WireStore.empty
      = some (.created "http://localhost:5000/123" (some 1800000), wireStoreText123) ∧
    createOnWire sampleIsURLWire "5000"
        (some ⟨some (.str "https://example.org"), none, some (.num (.fin 123))⟩) 1 1 []
        wireStoreText123
      = some (.created "http://localhost:5000/123" (some 1800001), wireStoreBoth123) := by
  decide

/-- C16, the code on two overlapping requests: the first `abc` request has written its
record and one redirect has been recorded for it; the second `abc` request, which passed
its key test on the empty store before waiting in `await Log`, then writes: the stored
record of `abc` gets another `originalUrl`, `createdAt`, `expiryTime` and `validity`, its
`clickCount` goes from 1 to 0 and its click sequence from one event to none, through a
create and no redirect. -/
theorem overlapping_create_replaces_record :
    createCheck sampleIsURLWire (some bodyAbcSecond) WireStore.empty
      = .suspended (.keep "https://example.org" (.num (.fin 5)) (.str "abc")) ∧
    createOnWire sampleIsURLWire "5000" (some bodyAbcFirst) 0 0 [] WireStore.empty
      = some (.created "http://localhost:5000/abc" (some 60000), wireStoreFirst) ∧
    resolveOnWire "abc" 10 sampleRequest wireStoreFirst
      = (.redirect "https://example.com", wireStoreFirstClicked) ∧
    wireGet wireStoreFirstClicked.urlDatabase (.str "abc")
      = some ⟨"https://example.com", .str "abc", 0, some 60000, .num (.fin 1), 1⟩ ∧
    wireGet wireStoreFirstClicked.clickDatabase (.str "abc")
      = some [⟨10, none, none, none, "New York, US"⟩] ∧
    createWrite "5000" (.keep "https://example.org" (.num (.fin 5)) (.str "abc")) 20 20 []
        wireStoreFirstClicked
      = some (.created "http://localhost:5000/abc" (some 300020), wireStoreSecond) ∧
    wireGet wireStoreSecond.urlDatabase (.str "abc")
      = some ⟨"https://example.org", .str "abc", 20, some 300020, .num (.fin 5), 0⟩ ∧
    wireGet wireStoreSecond.clickDatabase (.str "abc") = some [] := by
  decide

/-- C15, the code on a number as custom code: a create with `shortcode = 123` (a JSON
number) passes the pattern test of line 73 by coercion, answers 201 with the link
`http://localhost:5000/123` and stores the record under the number `123`; the statistics
and redirect handlers look the string `"123"` up and answer 404. -/
theorem number_shortcode_link_not_found :
    createOnWire sampleIsURLWire "5000"
        (some ⟨some (.str "https://example.com"), none, some (.num (.fin 123))⟩) 0 0 []
        WireStore.empty
      = some (.created "http://localhost:5000/123" (some 1800000), wireStoreNumber) ∧
    wireHas wireStoreNumber.urlDatabase (.num (.fin 123)) = true ∧
    wireHas wireStoreNumber.urlDatabase (.str "123") = false ∧
    getStatsOnWire "123" wireStoreNumber
      = (.notFound "Short URL not found", wireStoreNumber) ∧
    resolveOnWire "123" 5 sampleRequest wireStoreNumber
      = (.notFound "Short URL not found", wireStoreNumber) := by
  decide

/-- C10, the code on an invalid `url` that is not a string: with `url = 123` (a JSON
number) the create handler answers 500 `Internal server error`, not 400
`Invalid URL format`, and so it does for a request without a parsed body; an absent, null
or empty `url` and a string that `isURL` rejects are answered 400.  The store is
unchanged in every case. -/
theorem non_string_url_internal_error :
    createOnWire sampleIsURLWire "5000"
        (some ⟨some (.num (.fin 123)), none, none⟩) 0 0 [] wireStoreFirst
      = some (.internalError "Internal server error", wireStoreFirst) ∧
    (Response.internalError "Internal server error").status = 500 ∧
    createOnWire sampleIsURLWire "5000" none 0 0 [] wireStoreFirst
      = some (.internalError "Internal server error", wireStoreFirst) ∧
    createOnWire sampleIsURLWire "5000" (some ⟨none, none, none⟩) 0 0 [] wireStoreFirst
      = some (.badRequest "Invalid URL format", wireStoreFirst) ∧
    createOnWire sampleIsURLWire "5000" (some ⟨some .null, none, none⟩) 0 0 [] wireStoreFirst
      = some (.badRequest "Invalid URL format", wireStoreFirst) ∧
    createOnWire sampleIsURLWire "5000" (some ⟨some (.str ""), none, none⟩) 0 0 []
        wireStoreFirst
      = some (.badRequest "Invalid URL format", wireStoreFirst) ∧
    createOnWire sampleIsURLWire "5000" (some ⟨some (.str "not a url"), none, none⟩) 0 0 []
        wireStoreFirst
      = some (.badRequest "Invalid URL format", wireStoreFirst) := by
  decide

theorem sameValueZero_str (a b : String) : sameValueZero (.str a) (.str b) = (a == b) := by
  by_cases h : a = b <;> simp [sameValueZero, h]

theorem wireHas_map_str {α β : Type} (f : α → β) (m : List (String × α)) (k : String) :
    wireHas (m.map fun e => (JVal.str e.1, f e.2)) (.str k) = mapHas m k := by
  induction m with
  | nil => rfl
  | cons e m ih => simp [wireHas, mapHas, sameValueZero_str, ih]

theorem wireGet_map_str {α β : Type} (f : α → β) (m : List (String × α)) (k : String) :
    wireGet (m.map fun e => (JVal.str e.1, f e.2)) (.str k) = (mapGet m k).map f := by
  induction m with
  | nil => rfl
  | cons e m ih =>
    by_cases h : e.1 = k <;> simp [wireGet, mapGet, sameValueZero_str, ih, h]

theorem wireSet_map_str {α β : Type} (f : α → β) (m : List (String × α)) (k : String)
    (v : α) :
    wireSet (m.map fun e => (JVal.str e.1, f e.2)) (.str k) (f v)
      = (mapSet m k v).map fun e => (JVal.str e.1, f e.2) := by
  induction m with
  | nil => rfl
  | cons e m ih =>
    by_cases h : e.1 = k <;> simp [wireSet, mapSet, sameValueZero_str, ih, h]

theorem generateCodeOnWire_onWire (db : List (String × UrlData)) (draws : List (List Nat)) :
    generateCodeOnWire (db.map fun e => (JVal.str e.1, e.2.onWire)) draws
      = generateShortCode db draws := by
  induction draws with
  | nil => rfl
  | cons pool rest ih =>
    simp only [generateCodeOnWire, generateShortCode, wireHas_map_str, ih]

/-- On a body with string fields and a store with string keys, the two steps of the
create handler run one after the other are the one-step handler `createShortUrl`. -/
theorem createOnWire_onWire (isURL : String → Bool) (PORT : String) (body : CreateBody)
    (t1 t2 : Nat) (draws : List (List Nat)) (s : Store) :
    createOnWire isURL PORT (some body.onWire) t1 t2 draws s.onWire
      = (createShortUrl isURL PORT body t1 t2 draws s).map fun p => (p.1, p.2.onWire) := by
  have hgen := generateCodeOnWire_onWire s.urlDatabase draws
  have hhas : ∀ k, wireHas s.onWire.urlDatabase (.str k) = mapHas s.urlDatabase k :=
    fun k => wireHas_map_str _ _ k
  have hsetU : ∀ (k : String) (d : UrlData),
      wireSet s.onWire.urlDatabase (.str k) d.onWire
        = (mapSet s.urlDatabase k d).map fun e => (JVal.str e.1, e.2.onWire) :=
    fun k d => wireSet_map_str UrlData.onWire _ k d
  have hsetC : ∀ (k : String) (c : List ClickData),
      wireSet s.onWire.clickDatabase (.str k) c
        = (mapSet s.clickDatabase k c).map fun e => (JVal.str e.1, e.2) :=
    fun k c => wireSet_map_str id _ k c
  have hwrite : ∀ (u : String) (v : JVal) (k : String),
      (⟨wireSet s.onWire.urlDatabase (.str k)
          ⟨u, .str k, t1, toISOString (t2 + durationMs v), v, 0⟩,
        wireSet s.onWire.clickDatabase (.str k) []⟩ : WireStore)
      = (⟨mapSet s.urlDatabase k ⟨u, k, t1, toISOString (t2 + durationMs v), v, 0⟩,
          mapSet s.clickDatabase k []⟩ : Store).onWire := by
    intro u v k
    exact congrArg₂ WireStore.mk
      (hsetU k ⟨u, k, t1, toISOString (t2 + durationMs v), v, 0⟩) (hsetC k [])
  obtain ⟨url, validity, shortcode⟩ := body
  cases url with
  | none => simp [createOnWire, createCheck, createShortUrl, CreateBody.onWire]
  | some u =>
    by_cases hu : u = ""
    · simp [createOnWire, createCheck, createShortUrl, CreateBody.onWire, hu, JVal.truthy]
    · by_cases hok : isURL u = true
      · by_cases hval : validityRejected (validity.getD (.num (.fin 30))) = true
        · simp [createOnWire, createCheck, createShortUrl, CreateBody.onWire, hu, JVal.truthy,
            hok, hval]
        · have hval' : validityRejected (validity.getD (.num (.fin 30))) = false :=
            Bool.eq_false_iff.mpr hval
          have hfall :
              (match (generateCodeOnWire s.onWire.urlDatabase draws).map JVal.str with
                | none => none
                | some code =>
                  some (Response.created (shortLinkOf PORT ((jsText code).getD ""))
                      (toISOString (t2 + durationMs (validity.getD (.num (.fin 30))))),
                    (⟨wireSet s.onWire.urlDatabase code
                        ⟨u, code, t1,
                          toISOString (t2 + durationMs (validity.getD (.num (.fin 30)))),
                          validity.getD (.num (.fin 30)), 0⟩,
                      wireSet s.onWire.clickDatabase code []⟩ : WireStore)))
              = (match generateShortCode s.urlDatabase draws with
                | none => none
                | some code =>
                  some (Response.created (shortLinkOf PORT code)
                      (toISOString (t2 + durationMs (validity.getD (.num (.fin 30))))),
                    (⟨mapSet s.urlDatabase code
                        ⟨u, code, t1,
                          toISOString (t2 + durationMs (validity.getD (.num (.fin 30)))),
                          validity.getD (.num (.fin 30)), 0⟩,
                      mapSet s.clickDatabase code []⟩ : Store))).map
                  fun (p : Response × Store) => (p.1, p.2.onWire) := by
            have hg : generateCodeOnWire s.onWire.urlDatabase draws
                = generateShortCode s.urlDatabase draws := hgen
            rw [hg]
            cases generateShortCode s.urlDatabase draws with
            | none => rfl
            | some code => simp [hwrite, jsText]
          cases shortcode with
          | none =>
            simpa [createOnWire, createCheck, createWrite, createShortUrl, CreateBody.onWire,
              hu, JVal.truthy, hok, hval'] using hfall
          | some sc =>
            by_cases hsc : sc = ""
            · simpa [createOnWire, createCheck, createWrite, createShortUrl,
                CreateBody.onWire, hu, JVal.truthy, hok, hval', hsc] using hfall
            · cases hkey : mapHas s.urlDatabase sc with
              | true =>
                simp [createOnWire, createCheck, createShortUrl, CreateBody.onWire, hu,
                  JVal.truthy, hok, hval', hsc, hhas, hkey]
              | false =>
                cases hm : matchesCodePattern sc with
                | true =>
                  simp [createOnWire, createCheck, createWrite, createShortUrl,
                    CreateBody.onWire, hu, JVal.truthy, hok, hval', hsc, hhas, hkey,
                    testCodePattern, jsText, hm, hwrite]
                | false =>
                  simpa [createOnWire, createCheck, createWrite, createShortUrl,
                    CreateBody.onWire, hu, JVal.truthy, hok, hval', hsc, hhas, hkey,
                    testCodePattern, jsText, hm] using hfall
      · simp [createOnWire, createCheck, createShortUrl, CreateBody.onWire, hu, JVal.truthy,
          hok]

/-- On a store with string keys the statistics handler is `getStats`. -/
theorem getStatsOnWire_onWire (code : String) (s : Store) :
    getStatsOnWire code s.onWire = ((getStats code s).1, (getStats code s).2.onWire) := by
  have hhas : wireHas s.onWire.urlDatabase (.str code) = mapHas s.urlDatabase code :=
    wireHas_map_str _ _ code
  have hget : wireGet s.onWire.urlDatabase (.str code)
      = (mapGet s.urlDatabase code).map UrlData.onWire := wireGet_map_str _ _ code
  have hc : wireGet s.onWire.clickDatabase (.str code) = mapGet s.clickDatabase code := by
    have := wireGet_map_str (id : List ClickData → List ClickData) s.clickDatabase code
    simpa [Store.onWire] using this
  unfold getStatsOnWire getStats
  rw [hhas, hget, hc]
  cases mapHas s.urlDatabase code with
  | false => rfl
  | true =>
    cases mapGet s.urlDatabase code with
    | none => rfl
    | some d => rfl

/-- On a store with string keys the redirect handler is `resolve`. -/
theorem resolveOnWire_onWire (code : String) (now : Nat) (req : RequestContext) (s : Store) :
    resolveOnWire code now req s.onWire
      = ((resolve code now req s).1, (resolve code now req s).2.onWire) := by
  have hhas : wireHas s.onWire.urlDatabase (.str code) = mapHas s.urlDatabase code :=
    wireHas_map_str _ _ code
  have hget : wireGet s.onWire.urlDatabase (.str code)
      = (mapGet s.urlDatabase code).map UrlData.onWire := wireGet_map_str _ _ code
  have hc : wireGet s.onWire.clickDatabase (.str code) = mapGet s.clickDatabase code := by
    have := wireGet_map_str (id : List ClickData → List ClickData) s.clickDatabase code
    simpa [Store.onWire] using this
  have hsetU : ∀ (d : UrlData),
      wireSet s.onWire.urlDatabase (.str code) d.onWire
        = (mapSet s.urlDatabase code d).map fun e => (JVal.str e.1, e.2.onWire) :=
    fun d => wireSet_map_str UrlData.onWire _ code d
  have hsetC : ∀ (c : List ClickData),
      wireSet s.onWire.clickDatabase (.str code) c
        = (mapSet s.clickDatabase code c).map fun e => (JVal.str e.1, e.2) :=
    fun c => wireSet_map_str id _ code c
  unfold resolveOnWire resolve
  rw [hhas, hget, hc]
  cases mapHas s.urlDatabase code with
  | false => rfl
  | true =>
    cases mapGet s.urlDatabase code with
    | none => rfl
    | some d =>
      cases hexp : isAfter now d.expiryTime with
      | true => simp [UrlData.onWire, hexp]
      | false =>
        cases mapGet s.clickDatabase code with
        | none => simp [UrlData.onWire, hexp]
        | some clicks =>
          simp only [Option.map_some', UrlData.onWire, hexp, Bool.not_true, Bool.false_eq_true,
            if_false]
          exact Prod.ext rfl (congrArg₂ WireStore.mk
            (hsetU { d with clickCount := (clicks ++ [clickOf now req]).length })
            (hsetC (clicks ++ [clickOf now req])))

end UrlShortener
